import Mathlib

/-!
Verification development for the doqmate RAG pipeline.

This file gives a shallow embedding, in Lean 4, of the query pipeline and
chunking code of the repository:

  * `services/embedding/chunking.py`   (page-text chunking window loop)
  * `services/llm/client.py`           (`parseJson` recovery strategy,
                                        `callQwen` outcome abstraction)
  * `services/llm/queryRefine.py`      (TASK 1 refinement with fallback)
  * `services/llm/firstRefine.py`      (stage-0 OCR cleanup)
  * `services/llm/answerGeneration.py` (TASK 2 answer synthesis with fallback)
  * `services/retrieval/search.py`     (top-K search and neighbor expansion)
  * `services/queryService.py`         (`progressQuery` orchestration)

Python strings are modelled as `String`/`List Char`; Python `int` as `Int`
(or `Nat` where the source value is provably non-negative); Python `float`
scores and distances as `ℚ` (exact rational arithmetic standing in for IEEE
floats; every comparison the claims depend on involves short decimal
constants, where the two agree); fallible Python code as `Except`/`Option`.
External effects (HTTP calls to the LLM, the Chroma vector store, the
embedding server) are passed in explicitly as oracle values describing the
outcome of each outbound call.  Wall-clock latency and logging are not
modelled: no verified property mentions them.
-/

/-! ## Python string primitives -/

/-- Model of Python's default `str.strip()` whitespace class (ASCII part:
space, tab, newline, carriage return, vertical tab, form feed).  Python also
strips some rare Unicode space code points; no text in the claims uses
them. -/
def pyIsSpace (c : Char) : Bool :=
  c = ' ' || c = '\t' || c = '\n' || c = '\r' || c = '\x0b' || c = '\x0c'

/-- Python `str.strip()` on a character list: drop leading and trailing
whitespace. -/
def pyStripL (s : List Char) : List Char :=
  ((s.dropWhile pyIsSpace).reverse.dropWhile pyIsSpace).reverse

/-- Python `str.strip()` on `String`. -/
def pyStrip (s : String) : String :=
  ⟨pyStripL s.data⟩

/-- Python slice `s[a:b]` (for `0 ≤ a ≤ b`; the callers below only form
slices in that range). -/
def pySliceL (s : List Char) (a b : Nat) : List Char :=
  (s.take b).drop a

/-- `l₁` occurs as a contiguous sublist of `l₂` starting at index `i`. -/
def listMatchesAt (pat s : List Char) (i : Nat) : Bool :=
  decide ((s.drop i).take pat.length = pat)

/-- First index at which `pat` occurs in `s` (Python `str.find`), or `none`. -/
def listFind (pat s : List Char) : Option Nat :=
  (List.range (s.length + 1)).find? (fun i => listMatchesAt pat s i)

/-- Last index at which `pat` occurs in `s` (Python `str.rfind`), or `none`. -/
def listRfind (pat s : List Char) : Option Nat :=
  ((List.range (s.length + 1)).reverse).find? (fun i => listMatchesAt pat s i)

/-- Python `pat in s` substring test. -/
def listContains (pat s : List Char) : Bool :=
  (listFind pat s).isSome

/-- Python `s.split(sep, 1)` when `sep` occurs in `s`: the part before the
first occurrence and the part after it. -/
def splitFirst (sep s : List Char) : Option (List Char × List Char) :=
  match listFind sep s with
  | none => none
  | some i => some (s.take i, s.drop (i + sep.length))

/-- Code-point order on characters (Python string comparison is pointwise
code-point comparison). -/
def charLeb (a b : Char) : Bool :=
  a.toNat ≤ b.toNat

/-- Lexicographic code-point comparison of character lists, modelling
Python `str <=`. -/
def strLebL : List Char → List Char → Bool
  | [], _ => true
  | _ :: _, [] => false
  | a :: as, b :: bs =>
    if a.toNat < b.toNat then true
    else if b.toNat < a.toNat then false
    else strLebL as bs

/-- Python `str <=` on `String`. -/
def strLeb (a b : String) : Bool :=
  strLebL a.data b.data

/-- Python `int(s)`: strip whitespace, optional sign, one or more ASCII
digits (underscore separators of Python literals are not modelled; no input
in this development contains them).  Returns `none` where Python raises
`ValueError`. -/
def pyInt (s : List Char) : Option Int :=
  let t := pyStripL s
  let core : List Char → Option Int := fun ds =>
    if ds = [] then none
    else if ds.all (fun c => c.isDigit) then
      some (Int.ofNat (ds.foldl (fun acc c => acc * 10 + (c.toNat - 48)) 0))
    else none
  match t with
  | '-' :: rest => (core rest).map (fun n => -n)
  | '+' :: rest => core rest
  | _ => core t

/-! ## Generic sorting helper

Python's `list.sort`/`sorted` with a key function is modelled by
`List.insertionSort` over the boolean key comparison.  (`list.sort` is a
stable sort; among elements with equal keys `insertionSort` may order
differently, but no verified property below depends on the relative order
of equal-key elements.) -/

/-- Sort a list by a boolean "less-or-equal" test, modelling Python
`sorted(..., key=...)`. -/
def sortByLe {α : Type} (le : α → α → Bool) (l : List α) : List α :=
  List.insertionSort (fun a b => le a b = true) l

theorem sortByLe_perm {α : Type} (le : α → α → Bool) (l : List α) :
    (sortByLe le l).Perm l :=
  List.perm_insertionSort _ l

theorem sortByLe_sorted {α : Type} (le : α → α → Bool)
    (htot : ∀ a b, le a b = true ∨ le b a = true)
    (htrans : ∀ a b c, le a b = true → le b c = true → le a c = true)
    (l : List α) :
    (sortByLe le l).Sorted (fun a b => le a b = true) := by
  haveI : IsTotal α (fun a b => le a b = true) := ⟨htot⟩
  haveI : IsTrans α (fun a b => le a b = true) := ⟨htrans⟩
  exact List.sorted_insertionSort _ l

/-! ## JSON values and a model of Python `json.loads`

`services/llm/client.py` feeds LLM output through `json.loads`.  Decoded
values are modelled by `Json`.  Numbers keep their source lexeme (the
claims under verification depend on parse success/failure and on
extraction, never on float arithmetic on parsed numbers). -/

inductive Json where
  | null
  | bool (b : Bool)
  | num (lexeme : String)
  | str (s : String)
  | arr (xs : List Json)
  | obj (fields : List (String × Json))
  deriving Repr, Inhabited

/-- Python `dict.get`: objects built by the parser below have unique keys,
so the first match is the only one. -/
def dictGet (fields : List (String × Json)) (k : String) : Option Json :=
  (fields.find? (fun p => p.1 = k)).map (·.2)

/-- Python `d[k] = v` on an insertion-ordered dict: replace in place if the
key exists, else append.  Also the duplicate-key rule of `json.loads`
(later value wins, original position kept). -/
def dictSet (fields : List (String × Json)) (k : String) (v : Json) :
    List (String × Json) :=
  if (fields.find? (fun p => p.1 = k)).isSome then
    fields.map (fun p => if p.1 = k then (k, v) else p)
  else fields ++ [(k, v)]

/-- Python `d.setdefault(k, v)`. -/
def dictSetdefault (fields : List (String × Json)) (k : String) (v : Json) :
    List (String × Json) :=
  if (dictGet fields k).isSome then fields else fields ++ [(k, v)]

/-- JSON whitespace skipped by the decoder (space, tab, newline, CR). -/
def jsonSkipWs (s : List Char) : List Char :=
  s.dropWhile (fun c => c = ' ' || c = '\t' || c = '\n' || c = '\r')

def hexVal (c : Char) : Option Nat :=
  if '0' ≤ c ∧ c ≤ '9' then some (c.toNat - 48)
  else if 'a' ≤ c ∧ c ≤ 'f' then some (c.toNat - 87)
  else if 'A' ≤ c ∧ c ≤ 'F' then some (c.toNat - 55)
  else none

def escChar (e : Char) : Option Char :=
  if e = '"' then some '"'
  else if e = '\\' then some '\\'
  else if e = '/' then some '/'
  else if e = 'b' then some '\x08'
  else if e = 'f' then some '\x0c'
  else if e = 'n' then some '\n'
  else if e = 'r' then some '\r'
  else if e = 't' then some '\t'
  else none

/-- Body of a JSON string after the opening quote: returns the decoded
content and the input following the closing quote.  Surrogate-pair
combination of `\uXXXX` escapes is not modelled (no claim input contains
surrogates); unescaped control characters are rejected as in strict-mode
`json.loads`. -/
def parseStringBody : List Char → Option (List Char × List Char)
  | [] => none
  | '"' :: rest => some ([], rest)
  | '\\' :: 'u' :: h1 :: h2 :: h3 :: h4 :: rest =>
    (match hexVal h1, hexVal h2, hexVal h3, hexVal h4 with
     | some a, some b, some c, some d =>
       (parseStringBody rest).map
         (fun p => (Char.ofNat (((a * 16 + b) * 16 + c) * 16 + d) :: p.1, p.2))
     | _, _, _, _ => none)
  | '\\' :: e :: rest =>
    (match escChar e with
     | some c => (parseStringBody rest).map (fun p => (c :: p.1, p.2))
     | none => none)
  | c :: rest =>
    if c.toNat < 32 then none
    else (parseStringBody rest).map (fun p => (c :: p.1, p.2))

def lexDigits (s : List Char) : List Char × List Char :=
  (s.takeWhile Char.isDigit, s.dropWhile Char.isDigit)

/-- Lex one JSON number, returning its lexeme and the rest of the input. -/
def lexNumber (s : List Char) : Option (List Char × List Char) :=
  let signAndRest : List Char × List Char :=
    match s with
    | '-' :: r => (['-'], r)
    | _ => ([], s)
  let sign := signAndRest.1
  let s1 := signAndRest.2
  match s1 with
  | [] => none
  | c :: _ =>
    if ¬ c.isDigit then none
    else
      let intAndRest : List Char × List Char :=
        match s1 with
        | '0' :: r => (['0'], r)
        | _ => lexDigits s1
      let intPart := intAndRest.1
      let s2 := intAndRest.2
      let fracAndRest : List Char × List Char :=
        match s2 with
        | '.' :: r =>
          let dr := lexDigits r
          if dr.1 = [] then ([], s2) else ('.' :: dr.1, dr.2)
        | _ => ([], s2)
      let frac := fracAndRest.1
      let s3 := fracAndRest.2
      let expAndRest : List Char × List Char :=
        match s3 with
        | e :: r =>
          if e = 'e' ∨ e = 'E' then
            let sgr : List Char × List Char :=
              match r with
              | '+' :: r2 => (['+'], r2)
              | '-' :: r2 => (['-'], r2)
              | _ => ([], r)
            let dr := lexDigits sgr.2
            if dr.1 = [] then ([], s3) else (e :: (sgr.1 ++ dr.1), dr.2)
          else ([], s3)
        | [] => ([], s3)
      some (sign ++ intPart ++ frac ++ expAndRest.1, expAndRest.2)

mutual

/-- One JSON value at the head of the (already whitespace-skipped) input.
Fuel bounds the recursion; `loads` supplies more than any input can
consume. -/
def parseValue : Nat → List Char → Option (Json × List Char)
  | 0, _ => none
  | fuel + 1, s =>
    match s with
    | '"' :: rest =>
      (parseStringBody rest).map (fun p => (Json.str ⟨p.1⟩, p.2))
    | '{' :: rest =>
      (match jsonSkipWs rest with
       | '}' :: r => some (Json.obj [], r)
       | r1 => parseMembers fuel r1 [])
    | '[' :: rest =>
      (match jsonSkipWs rest with
       | ']' :: r => some (Json.arr [], r)
       | r1 => parseElems fuel r1 [])
    | _ =>
      if listMatchesAt "true".data s 0 then some (Json.bool true, s.drop 4)
      else if listMatchesAt "false".data s 0 then some (Json.bool false, s.drop 5)
      else if listMatchesAt "null".data s 0 then some (Json.null, s.drop 4)
      else if listMatchesAt "NaN".data s 0 then some (Json.num "NaN", s.drop 3)
      else if listMatchesAt "Infinity".data s 0 then
        some (Json.num "Infinity", s.drop 8)
      else if listMatchesAt "-Infinity".data s 0 then
        some (Json.num "-Infinity", s.drop 9)
      else (lexNumber s).map (fun p => (Json.num ⟨p.1⟩, p.2))

/-- Comma-separated array elements after the opening bracket. -/
def parseElems : Nat → List Char → List Json → Option (Json × List Char)
  | 0, _, _ => none
  | fuel + 1, s, acc =>
    (parseValue fuel s).bind (fun vr =>
      match jsonSkipWs vr.2 with
      | ',' :: r2 => parseElems fuel (jsonSkipWs r2) (acc ++ [vr.1])
      | ']' :: r2 => some (Json.arr (acc ++ [vr.1]), r2)
      | _ => none)

/-- Comma-separated object members after the opening brace. -/
def parseMembers : Nat → List Char → List (String × Json) →
    Option (Json × List Char)
  | 0, _, _ => none
  | fuel + 1, s, acc =>
    match s with
    | '"' :: rest =>
      (parseStringBody rest).bind (fun kr =>
        match jsonSkipWs kr.2 with
        | ':' :: r2 =>
          (parseValue fuel (jsonSkipWs r2)).bind (fun vr =>
            match jsonSkipWs vr.2 with
            | ',' :: r5 =>
              parseMembers fuel (jsonSkipWs r5) (dictSet acc ⟨kr.1⟩ vr.1)
            | '}' :: r5 => some (Json.obj (dictSet acc ⟨kr.1⟩ vr.1), r5)
            | _ => none)
        | _ => none)
    | _ => none

end

/-- Model of Python `json.loads`: decode one JSON document, requiring only
whitespace to remain. -/
def loads (s : List Char) : Except Unit Json :=
  match parseValue (2 * s.length + 8) (jsonSkipWs s) with
  | some (v, rest) => if jsonSkipWs rest = [] then Except.ok v else Except.error ()
  | none => Except.error ()

/-! ## Python coercions on decoded JSON values -/

/-- Zero test on a number lexeme (sign, digits, optional point/exponent):
Python treats `0`, `-0.0`, `0e5`, ... as falsy.  `NaN`/`Infinity` lexemes
contain non-digit letters and are truthy. -/
def numLexemeIsZero (s : List Char) : Bool :=
  let t : List Char :=
    match s with
    | '-' :: r => r
    | '+' :: r => r
    | r => r
  let mant := t.takeWhile (fun c => c ≠ 'e' ∧ c ≠ 'E')
  mant.all (fun c => c = '0' || c = '.')

/-- Python truthiness (`bool(x)`) of a decoded JSON value. -/
def jsonTruthy : Json → Bool
  | Json.null => false
  | Json.bool b => b
  | Json.num s => ¬ numLexemeIsZero s.data
  | Json.str s => ¬ s.data.isEmpty
  | Json.arr xs => ¬ xs.isEmpty
  | Json.obj fs => ¬ fs.isEmpty

/-- Python `repr()` of a decoded JSON value.  Float canonicalization
(`str(1e3) = "1000.0"`) and `repr`-escaping inside strings are not
modelled: no verified property depends on the rendered text of a non-string
value, only on its emptiness, which this printer preserves exactly. -/
def pyReprJ : Json → String
  | Json.null => "None"
  | Json.bool true => "True"
  | Json.bool false => "False"
  | Json.num s => s
  | Json.str s => "\x27" ++ s ++ "\x27"
  | Json.arr xs =>
    "[" ++ ", ".intercalate (xs.attach.map (fun x => pyReprJ x.1)) ++ "]"
  | Json.obj fs =>
    "\x7b" ++
      ", ".intercalate
        (fs.attach.map
          (fun kv => "\x27" ++ kv.1.1 ++ "\x27: " ++ pyReprJ kv.1.2)) ++
      "\x7d"
termination_by j => sizeOf j
decreasing_by
  · have h := List.sizeOf_lt_of_mem x.2
    simp only [Json.arr.sizeOf_spec]
    omega
  · have h := List.sizeOf_lt_of_mem kv.2
    have h2 : sizeOf kv.1.2 < sizeOf kv.1 := by
      obtain ⟨a, b⟩ := kv.1
      simp only [Prod.mk.sizeOf_spec]
      omega
    simp only [Json.obj.sizeOf_spec]
    omega

/-- Python `str()` of a decoded JSON value. -/
def pyStrJ (v : Json) : String :=
  match v with
  | Json.str s => s
  | _ => pyReprJ v

def digitsToNat (ds : List Char) : Nat :=
  ds.foldl (fun a c => a * 10 + (c.toNat - 48)) 0

/-- Numeric value of a decimal literal `[sign] digits [. digits] [e sign
digits]` as an exact rational.  Returns `none` where Python `float()` would
raise, and also for `inf`/`nan` spellings (Python accepts those; no claim
exercises them). -/
def lexToRat (s0 : List Char) : Option ℚ :=
  let sp : ℚ × List Char :=
    match s0 with
    | '-' :: r => (-1, r)
    | '+' :: r => (1, r)
    | _ => (1, s0)
  let ipr := lexDigits sp.2
  let hasDot : Bool :=
    match ipr.2 with
    | '.' :: _ => true
    | _ => false
  let fpr : List Char × List Char :=
    match ipr.2 with
    | '.' :: r => lexDigits r
    | _ => ([], ipr.2)
  if ipr.1 = [] ∧ fpr.1 = [] then none
  else
    let rest := if hasDot then fpr.2 else ipr.2
    let er : Option (Int × List Char) :=
      match rest with
      | e :: r =>
        if e = 'e' ∨ e = 'E' then
          let sgr : Int × List Char :=
            match r with
            | '+' :: r2 => (1, r2)
            | '-' :: r2 => (-1, r2)
            | _ => (1, r)
          let dr := lexDigits sgr.2
          if dr.1 = [] then none
          else some (sgr.1 * Int.ofNat (digitsToNat dr.1), dr.2)
        else some (0, rest)
      | [] => some (0, [])
    match er with
    | none => none
    | some (ex, rem) =>
      if rem = [] then
        let mant : ℚ :=
          (digitsToNat ipr.1 : ℚ) +
            (digitsToNat fpr.1 : ℚ) / ((10 : ℚ) ^ fpr.1.length)
        some (sp.1 * mant * (10 : ℚ) ^ ex)
      else none

/-- Python `float()` of a decoded JSON value: `none` models a raised
`TypeError`/`ValueError`. -/
def pyFloatJ : Json → Option ℚ
  | Json.null => none
  | Json.bool b => some (if b then 1 else 0)
  | Json.num s => lexToRat s.data
  | Json.str s => lexToRat (pyStripL s.data)
  | Json.arr _ => none
  | Json.obj _ => none

/-! ## `parseJson` — resilient extraction of a JSON object from LLM output
(`services/llm/client.py`, lines 153–239). -/

/-- The `\s` class of Python `re` (ASCII part). -/
def reIsSpace (c : Char) : Bool :=
  c = ' ' || c = '\t' || c = '\n' || c = '\r' || c = '\x0b' || c = '\x0c'

/-- Case-insensitive test for `json` at the head of `s`. -/
def headIsJsonWord (s : List Char) : Bool :=
  match s.take 4 with
  | [a, b, c, d] =>
    a.toLower = 'j' && b.toLower = 's' && c.toLower = 'o' && d.toLower = 'n'
  | _ => false

/-- After a closing brace: does a closing fence follow, up to `\s*`?
(The greedy `\s*` before the literal backticks can only succeed at the end
of the maximal whitespace run, since a backtick is not whitespace.) -/
def closeFenceAfter (rest : List Char) : Bool :=
  listMatchesAt "```".data (rest.dropWhile reIsSpace) 0

/-- Lazy `.*?` body of the fenced group: absorb characters until the first
closing brace from which a closing fence follows (DOTALL: any character may
be absorbed). -/
def lazyBody (acc : List Char) : List Char → Option (List Char)
  | [] => none
  | c :: rest =>
    if c = '\x7d' ∧ closeFenceAfter rest then some (acc ++ [c])
    else lazyBody (acc ++ [c]) rest

/-- Try the fenced-code-block pattern at the head of `s`, returning the
braced group on success.  If `json` follows the opening fence, dropping it
is the only viable alternative of `(?:json)?` (without it the next
character is `j`, which is neither whitespace nor an opening brace). -/
def matchFenceAt (s : List Char) : Option (List Char) :=
  if listMatchesAt "```".data s 0 then
    let afterTicks := s.drop 3
    let afterJson :=
      if headIsJsonWord afterTicks then afterTicks.drop 4 else afterTicks
    match afterJson.dropWhile reIsSpace with
    | '\x7b' :: rest => (lazyBody [] rest).map (fun body => '\x7b' :: body)
    | _ => none
  else none

/-- `re.search` with the code-block pattern
` ```(?:json)?\s*(\{.*?\})\s*``` ` (DOTALL, IGNORECASE): leftmost match
wins. -/
def searchFence : List Char → Option (List Char)
  | [] => none
  | c :: rest =>
    match matchFenceAt (c :: rest) with
    | some g => some g
    | none => searchFence rest

/-- The three `ValueError` messages `parseJson` can raise. -/
inductive ParseJsonError where
  | emptyResponse
  | noJsonRegion
  | parseFailed
  deriving Repr, DecidableEq

/-- Strategy 1: if the trimmed text starts with `{` and ends with `}`, try
to parse it whole. -/
def parseJsonWhole (raw : List Char) : Option Json :=
  if raw.head? = some '\x7b' ∧ raw.getLast? = some '\x7d' then
    (loads raw).toOption
  else none

/-- Strategy 2: parse the contents of the first fenced code block. -/
def parseJsonFence (raw : List Char) : Option Json :=
  (searchFence raw).bind (fun g => (loads (pyStripL g)).toOption)

/-- Strategy 3: parse the substring from the first `{` to the last `}`,
after stripping a trailing stray fence. -/
def parseJsonBraces (raw : List Char) : Except ParseJsonError Json :=
  match listFind ['\x7b'] raw, listRfind ['\x7d'] raw with
  | some first, some last =>
    if last ≤ first then Except.error ParseJsonError.noJsonRegion
    else
      let js0 := pyStripL (pySliceL raw first (last + 1))
      let js :=
        match listRfind "```".data js0 with
        | some tb => pyStripL (js0.take tb)
        | none => js0
      match loads js with
      | Except.ok v => Except.ok v
      | Except.error _ => Except.error ParseJsonError.parseFailed
  | _, _ => Except.error ParseJsonError.noJsonRegion

/-- `parseJson` (`services/llm/client.py`): strip, then try the three
strategies in order; raise (`Except.error`) only when all fail. -/
def parseJson (raw0 : List Char) : Except ParseJsonError Json :=
  let raw := pyStripL raw0
  if raw = [] then Except.error ParseJsonError.emptyResponse
  else
    match parseJsonWhole raw with
    | some v => Except.ok v
    | none =>
      match parseJsonFence raw with
      | some v => Except.ok v
      | none => parseJsonBraces raw

/-! ## Chunking (`services/embedding/chunking.py`) -/

/-- Metadata attached to every chunk by `_chunkPageText`. -/
structure ChunkMeta where
  filename : Option String
  page : Nat
  document_id : String
  chatbot_id : String
  user_group_tags : List String
  process_tag : String
  chunk_order : Nat
  deriving Repr, DecidableEq

/-- `TextChunk` of `services/schemas/embeddingSchemas.py`. -/
structure TextChunk where
  chunk_id : String
  text : List Char
  page : Nat
  order : Nat
  meta : ChunkMeta
  deriving Repr, DecidableEq

/-- Chunk id `f"{documentId}_p{page}_c{order}"`. -/
def mkChunkId (documentId : String) (page order : Nat) : String :=
  documentId ++ "_p" ++ toString page ++ "_c" ++ toString order

/-- The `while start < length` window loop of `_chunkPageText`.  `fuel`
bounds the number of iterations; for `overlap < maxChars` the window start
strictly advances each iteration, so `text.length` iterations always
suffice (for `overlap ≥ maxChars` the Python loop does not terminate, and
no caller reaches that configuration). -/
def chunkLoop (fuel : Nat) (text : List Char) (page : Nat)
    (chatbotId documentId : String) (filename : Option String)
    (userGroupTags : List String) (maxChars overlap : Nat)
    (start order : Nat) : List TextChunk :=
  match fuel with
  | 0 => []
  | fuel + 1 =>
    if start < text.length then
      let endIdx := min (start + maxChars) text.length
      let chunkText := pyStripL (pySliceL text start endIdx)
      if chunkText.isEmpty then []
      else
        let c : TextChunk :=
          { chunk_id := mkChunkId documentId page order
            text := chunkText
            page := page
            order := order
            meta :=
              { filename := filename
                page := page
                document_id := documentId
                chatbot_id := chatbotId
                user_group_tags := userGroupTags
                process_tag := "body"
                chunk_order := order } }
        if text.length ≤ endIdx then [c]
        else
          c ::
            chunkLoop fuel text page chatbotId documentId filename
              userGroupTags maxChars overlap (endIdx - overlap) (order + 1)
    else []

/-- `_chunkPageText`: strip the page text, then run the window loop from
`start = 0`, `order = 0`. -/
def chunkPageText (page : Nat) (pageText : List Char)
    (chatbotId documentId : String) (filename : Option String)
    (userGroupTags : List String) (maxChars overlap : Nat) : List TextChunk :=
  let text := pyStripL pageText
  if text.isEmpty then []
  else
    chunkLoop text.length text page chatbotId documentId filename
      userGroupTags maxChars overlap 0 0

/-- `MergedTextBlock` of `services/schemas/pdfSchemas.py` (the unused
`debug_log` field is omitted: chunking never reads it). -/
structure MergedTextBlock where
  page : Nat
  block_id : String
  text : List Char
  src_block_ids : List String
  deriving Repr, DecidableEq

/-- `_buildPageText`: strip each block text, drop empties, join with a
blank line, strip the result. -/
def buildPageText (blocks : List MergedTextBlock) : List Char :=
  let texts := ((blocks.map (fun b => pyStripL b.text)).filter
    (fun t => ¬ t.isEmpty))
  pyStripL (List.intercalate "\n\n".data texts)

/-- `chunkMergedPages`: validate parameters, then chunk each page in
ascending page order.  `maxChars`/`overlap` are Python ints validated to be
positive resp. non-negative; they are modelled as `Nat`, with the
`maxChars <= 0` guard becoming `maxChars = 0`. -/
def chunkMergedPages (mergedPages : List (Nat × List MergedTextBlock))
    (chatbotId documentId : String) (filename : Option String)
    (userGroupTags : Option (List String)) (maxChars overlap : Nat) :
    Except Unit (List TextChunk) :=
  if maxChars = 0 then Except.error ()
  else
    let tags :=
      match userGroupTags with
      | none => ["default"]
      | some [] => ["default"]
      | some l => l
    let keys := sortByLe Nat.ble (mergedPages.map (·.1))
    Except.ok (keys.flatMap (fun page =>
      let blocks :=
        ((mergedPages.find? (fun p => p.1 = page)).map (·.2)).getD []
      let pageText := buildPageText blocks
      if pageText.isEmpty then []
      else
        chunkPageText page pageText chatbotId documentId filename tags
          maxChars overlap))

/-! ## Stage-0 OCR cleanup (`services/llm/firstRefine.py`) -/

/-- `TextBlock` of `services/schemas/pdfSchemas.py`.  Bounding-box
coordinates and OCR confidence are PDF-point floats, modelled as exact
rationals; the cleanup stage never computes with them. -/
structure TextBlock where
  page : Nat
  block_id : String
  bbox : ℚ × ℚ × ℚ × ℚ
  text : String
  prob : Option ℚ
  deriving Repr, DecidableEq

/-- Outcome of one `callQwen` call: `httpError` stands for any of the
`RuntimeError`s the client raises (request exception, non-200 status,
non-JSON body, unexpected response shape); `ok content` is the returned
`message.content` after the client's `content or ""` normalization. -/
inductive CallOutcome where
  | httpError
  | ok (content : String)
  deriving Repr, DecidableEq

/-- Lookup with Python `dict.get(k, default)` semantics on a decoded JSON
object. -/
def jsonGetD (v : Json) (k : String) (d : Json) : Json :=
  match v with
  | Json.obj fs => (dictGet fs k).getD d
  | _ => d

/-- `_safeCleanText`: call task 0, parse, extract `cleaned_text`; on HTTP
failure, parse failure, or an empty cleaned text, return the original text
verbatim.  `env` maps the block text to the outcome of its `callQwen`
call.  (`parseJson` only ever returns objects, so the non-object branch of
`jsonGetD` is unreachable here; if it were reached, the Python
`data.get` would raise inside the same `try` and also return the
original.) -/
def safeCleanText (env : String → CallOutcome) (raw_text : String) : String :=
  if (pyStripL raw_text.data).isEmpty then raw_text
  else
    match env raw_text with
    | CallOutcome.httpError => raw_text
    | CallOutcome.ok content =>
      match parseJson content.data with
      | Except.error _ => raw_text
      | Except.ok data =>
        let cleaned := pyStrip (pyStrJ (jsonGetD data "cleaned_text" (Json.str "")))
        if cleaned.data.isEmpty then raw_text else cleaned

/-- `cleanOcrTextBlocks`: per block, clean the text through task 0, keeping
every other field; blocks whose text strips to empty skip the LLM call. -/
def cleanOcrTextBlocks (env : String → CallOutcome) (blocks : List TextBlock) :
    List TextBlock :=
  blocks.map (fun block =>
    if (pyStripL block.text.data).isEmpty then block
    else { block with text := safeCleanText env block.text })

/-! ## Vector store retrieval (`services/retrieval/search.py`)

The Chroma collection is an external dependency; it is modelled per its
interface as a list of records (`get` returns records matching a metadata
filter, in storage order; `query` returns the `n_results` nearest matching
records by a caller-opaque embedding distance, here an explicit oracle
`dist`).  Stored metadata values are scalars, typed as the upsert path of
`services/retrieval/store.py` writes them. -/

/-- Raw stored metadata of one record. -/
structure MetaRaw where
  chunk_id : Option String
  filename : Option String
  page : Option Int
  document_id : Option String
  manual_id : Option String
  chatbot_id : Option String
  process_tag : Option String
  user_group : Option String
  user_group_tags : Option String
  image_paths : Option String
  order_index : Option Int
  page_chunk_order : Option Int
  deriving Repr, DecidableEq

/-- Python `a or b` on optional strings (`None` and `""` are falsy). -/
def pyOrOptStr (a b : Option String) : Option String :=
  match a with
  | some s => if s.data.isEmpty then b else some s
  | none => b

/-- The common meta structure built by `_buildMeta`. -/
structure BuiltMeta where
  filename : Option String
  page : Int
  document_id : Option String
  manual_id : Option String
  chatbot_id : Option String
  process_tag : Option String
  user_group_tags : Option String
  image_paths : Option String
  order_index : Option Int
  page_chunk_order : Option Int
  deriving Repr, DecidableEq

/-- `_buildMeta`: `document_id` falls back to `manual_id` and vice versa;
`page` defaults to 0.  For `user_group_tags`/`image_paths`, `none` stands
for the `[]` default the Python dict lookup supplies when the key is
absent. -/
def buildMeta (m : MetaRaw) : BuiltMeta :=
  let documentId := pyOrOptStr m.document_id m.manual_id
  { filename := m.filename
    page := m.page.getD 0
    document_id := documentId
    manual_id := pyOrOptStr m.manual_id documentId
    chatbot_id := m.chatbot_id
    process_tag := m.process_tag
    user_group_tags := m.user_group_tags
    image_paths := m.image_paths
    order_index := m.order_index
    page_chunk_order := m.page_chunk_order }

/-- One stored record of a per-chatbot collection. -/
structure ChromaRecord where
  rid : String
  document : String
  meta : MetaRaw
  deriving Repr, DecidableEq

/-- One search-result chunk dict (`{"chunk_id", "text", "score", "meta"}`). -/
structure SearchChunk where
  chunk_id : String
  text : String
  score : ℚ
  meta : BuiltMeta
  deriving Repr, DecidableEq

/-- `chunk_id` resolution: the metadata value if truthy, else the Chroma
record id. -/
def effChunkId (r : ChromaRecord) : String :=
  match r.meta.chunk_id with
  | some s => if s.data.isEmpty then r.rid else s
  | none => r.rid

/-- `_buildWhere` as a record predicate: always `chatbot_id == $eq`, plus
`user_group == $eq` when `userGroup` is truthy.  A `$eq` filter does not
match records missing the key. -/
def matchesBaseWhere (chatbotId : String) (userGroup : Option String)
    (m : MetaRaw) : Bool :=
  decide (m.chatbot_id = some chatbotId) &&
    (match userGroup with
     | none => true
     | some g =>
       if g.data.isEmpty then true else decide (m.user_group = some g))

/-- The distance-to-similarity conversion `score = 1.0 / (1.0 + dist)`,
written over the reduced fraction of `d` (for `d = num/den`,
`1/(1+d) = den/(den+num)`); `scoreOfDist_eq` below proves it equal to
`1 / (1 + d)`.  For `d = -1` Python's `ZeroDivisionError` handler yields
`0.0`, and `Rat.divInt _ 0 = 0` here. -/
def scoreOfDist (d : ℚ) : ℚ :=
  Rat.divInt d.den (d.den + d.num)

theorem scoreOfDist_eq (d : ℚ) (h : 1 + d ≠ 0) : scoreOfDist d = 1 / (1 + d) := by
  have hden : (d.den : ℚ) ≠ 0 := by
    exact_mod_cast Rat.den_ne_zero d
  have hd : (d.num : ℚ) / (d.den : ℚ) = d := Rat.num_div_den d
  have hnum : (d.num : ℚ) = d * (d.den : ℚ) := by
    have h2 := congrArg (fun x : ℚ => x * (d.den : ℚ)) hd
    simp only [div_mul_cancel₀ _ hden] at h2
    exact h2
  have hsum : ((d.den : ℚ) + (d.num : ℚ)) = (1 + d) * (d.den : ℚ) := by
    rw [hnum]
    ring
  have hsum0 : ((d.den : ℚ) + (d.num : ℚ)) ≠ 0 := by
    rw [hsum]
    exact mul_ne_zero h hden
  unfold scoreOfDist
  rw [Rat.divInt_eq_div]
  push_cast
  rw [div_eq_div_iff hsum0 h, hsum]
  ring

/-- Ranking comparison for the nearest-neighbor query: ascending distance. -/
def distLe (dist : ChromaRecord → ℚ) (a b : ChromaRecord) : Bool :=
  decide (dist a ≤ dist b)

/-- `searchTopK`: missing collection or a failed query embedding degrade to
an empty result; otherwise the `topK` nearest records matching the filter,
with distance converted to a score `1/(1+d)`.  (For `d = -1` Python's
`ZeroDivisionError` handler yields score `0.0`; rational division by zero
also yields `0`.)  The query text reaches the store only through the
embedding, i.e. through `dist`. -/
def searchTopK (store : Option (List ChromaRecord)) (dist : ChromaRecord → ℚ)
    (embedOk : Bool) (chatbotId : String) (userGroup : Option String)
    (topK : Nat) : List SearchChunk :=
  match store with
  | none => []
  | some recs =>
    if embedOk then
      let cands := recs.filter (fun r => matchesBaseWhere chatbotId userGroup r.meta)
      let ranked := (sortByLe (distLe dist) cands).take topK
      ranked.map (fun r =>
        { chunk_id := effChunkId r
          text := r.document
          score := scoreOfDist (dist r)
          meta := buildMeta r.meta })
    else []

/-- Offsets `range(-radius, radius+1)` without `0`. -/
def neighborOffsets (radius : Int) : List Int :=
  ((List.range (2 * radius.toNat + 1)).map (fun k => (k : Int) - radius)).filter
    (fun d => d ≠ 0)

/-- Add to a Python set modelled as a duplicate-free list (iteration order
of the set is never observed: only membership and min/max are). -/
def setAddInt (s : List Int) (x : Int) : List Int :=
  if x ∈ s then s else s ++ [x]

def setAddStr (s : List String) (x : String) : List String :=
  if x ∈ s then s else s ++ [x]

/-- `doc_to_target_orders.setdefault(doc, set())` followed by adding all
targets. -/
def assocAddTargets (acc : List (String × List Int)) (doc : String)
    (ts : List Int) : List (String × List Int) :=
  if (acc.find? (fun p => p.1 = doc)).isSome then
    acc.map (fun p => if p.1 = doc then (p.1, ts.foldl setAddInt p.2) else p)
  else acc ++ [(doc, ts.foldl setAddInt [])]

/-- Base-hit ids (`seen_ids` after the first loop): truthy chunk ids of the
base chunks. -/
def baseSeenIds (baseChunks : List SearchChunk) : List String :=
  baseChunks.foldl
    (fun acc ch => if ch.chunk_id.data.isEmpty then acc else setAddStr acc ch.chunk_id)
    []

/-- `doc_to_target_orders`: for each base chunk with known `document_id`
and `order_index`, the wanted neighbor order indices, per document in
insertion order. -/
def docTargets (radius : Int) (baseChunks : List SearchChunk) :
    List (String × List Int) :=
  baseChunks.foldl
    (fun acc ch =>
      match ch.meta.document_id, ch.meta.order_index with
      | some doc, some oi =>
        assocAddTargets acc doc ((neighborOffsets radius).map (fun d => oi + d))
      | _, _ => acc)
    []

def intListMin : List Int → Int
  | [] => 0
  | x :: xs => xs.foldl min x

def intListMax : List Int → Int
  | [] => 0
  | x :: xs => xs.foldl max x

/-- The neighbor `col.get` filter:
`$and [document_id == doc, order_index ≥ min, order_index ≤ max]`. -/
def neighborWhereMatch (doc : String) (minIdx maxIdx : Int) (m : MetaRaw) : Bool :=
  decide (m.document_id = some doc) &&
    (match m.order_index with
     | some oi => decide (minIdx ≤ oi ∧ oi ≤ maxIdx)
     | none => false)

/-- The neighbor chunk dict built for a fetched record (score `0.0`). -/
def mkNeighborChunk (r : ChromaRecord) : SearchChunk :=
  { chunk_id := effChunkId r
    text := r.document
    score := 0
    meta := buildMeta r.meta }

/-- Inner loop over the fetched records of one document: keep records whose
`order_index` is a wanted target, resolve the chunk id, drop ids already
seen, thread `seen`.  Neighbors get score `0.0`. -/
def collectDocNeighbors (orderSet : List Int) :
    List ChromaRecord → List String → List String × List SearchChunk
  | [], seen => (seen, [])
  | r :: rs, seen =>
    match r.meta.order_index with
    | none => collectDocNeighbors orderSet rs seen
    | some oi =>
      if oi ∈ orderSet then
        let cid := effChunkId r
        if ¬ cid.data.isEmpty ∧ cid ∈ seen then
          collectDocNeighbors orderSet rs seen
        else
          let seen2 := if cid.data.isEmpty then seen else setAddStr seen cid
          let rest := collectDocNeighbors orderSet rs seen2
          (rest.1, mkNeighborChunk r :: rest.2)
      else collectDocNeighbors orderSet rs seen

/-- Outer loop over `doc_to_target_orders`: fetch each document's
`order_index ∈ [min, max]` range and collect wanted neighbors, threading
the seen ids across documents.  (A failed `col.get` skips its document;
fetch failures are not modelled — every verified property quantifies over
runs whose store reads succeed.) -/
def collectNeighbors (recs : List ChromaRecord) :
    List (String × List Int) → List String → List SearchChunk
  | [], _ => []
  | p :: ts, seen =>
    if p.2.isEmpty then collectNeighbors recs ts seen
    else
      let fetched := recs.filter
        (fun r => neighborWhereMatch p.1 (intListMin p.2) (intListMax p.2) r.meta)
      let res := collectDocNeighbors p.2 fetched seen
      res.2 ++ collectNeighbors recs ts res.1

/-- Sort key of the final neighbor ordering:
`(meta.document_id or "", meta.order_index if not None else -1)`. -/
def neighborKey (c : SearchChunk) : String × Int :=
  ((match c.meta.document_id with
    | some s => s
    | none => ""),
   c.meta.order_index.getD (-1))

/-- Lexicographic comparison on the neighbor sort key. -/
def neighborKeyLe (a b : String × Int) : Bool :=
  if a.1 = b.1 then decide (a.2 ≤ b.2) else strLeb a.1 b.1

def neighborChunkLe (a b : SearchChunk) : Bool :=
  neighborKeyLe (neighborKey a) (neighborKey b)

/-- `searchTopKWithNeighbors`: base top-K search, then same-document
neighbor expansion by `order_index ± neighborRadius`, neighbors sorted by
`(document_id, order_index)` and appended after the base hits. -/
def searchTopKWithNeighbors (store : Option (List ChromaRecord))
    (dist : ChromaRecord → ℚ) (embedOk : Bool) (chatbotId : String)
    (userGroup : Option String) (topK : Nat) (neighborRadius : Int) :
    List SearchChunk :=
  let baseChunks := searchTopK store dist embedOk chatbotId userGroup topK
  if baseChunks.isEmpty ∨ neighborRadius ≤ 0 then baseChunks
  else
    match store with
    | none => baseChunks
    | some recs =>
      let neighbors :=
        collectNeighbors recs (docTargets neighborRadius baseChunks)
          (baseSeenIds baseChunks)
      baseChunks ++ sortByLe neighborChunkLe neighbors

/-! ## Query pipeline types (`services/schemas/querySchemas.py`) and
confidence helpers (`services/queryService.py`) -/

/-- Python exception classes that can escape the modelled functions. -/
inductive PyErr where
  | valueError
  | runtimeError
  | attributeError
  | typeError
  deriving Repr, DecidableEq

/-- `QueryRefineResult` (TASK 1 output).  `filters`/`meta` are free-form
dicts of decoded JSON values. -/
structure QueryRefineResult where
  normalized_query : String
  keywords : List String
  filters : List (String × Json)
  meta : List (String × Json)
  deriving Repr

/-- The `meta` dict of a `QueryContextChunk`: either a pipeline-built meta
(search result) or a decoded JSON object supplied by the task-2 LLM inside
`supporting_chunks`. -/
inductive CtxMeta where
  | builtM (m : BuiltMeta)
  | jsonM (fields : List (String × Json))
  deriving Repr

/-- `QueryContextChunk`. -/
structure QueryContextChunk where
  chunk_id : Option String
  text : String
  score : ℚ
  meta : CtxMeta
  deriving Repr

/-- `RagMeta`. -/
structure RagMeta where
  retrieval_confidence : String
  intent_ambiguity_level : String
  need_clarification : Bool
  deriving Repr, DecidableEq

/-- `AnswerResult` (TASK 2 output).  The dataclass has no
`normalized_query` field — `progressQuery`'s `getattr(answerResult,
"normalized_query", None)` is therefore always `None`. -/
structure AnswerResult where
  answer : String
  supporting_chunks : List QueryContextChunk
  meta : RagMeta
  deriving Repr

def CONFIDENCE_ORDER : List String := ["unknown", "low", "medium", "high"]

/-- `_confidenceBelowMinimum` with
`MIN_CONFIDENCE_LEVEL_FOR_ANSWER = "low"`: `list.index` raising on an
unknown level conservatively blocks (`True`). -/
def confidenceBelowMinimum (level : String) : Bool :=
  match CONFIDENCE_ORDER.findIdx? (· = level),
      CONFIDENCE_ORDER.findIdx? (· = "low") with
  | some i, some j => decide (i < j)
  | _, _ => true

/-- `_estimateRetrievalConfidence`; the float thresholds `0.85`, `0.65`,
`0.40` are exact short decimals, equal to these rationals. -/
def estimateRetrievalConfidence (maxScore : ℚ) : String :=
  if maxScore ≥ Rat.divInt 85 100 then "high"
  else if maxScore ≥ Rat.divInt 65 100 then "medium"
  else if maxScore ≥ Rat.divInt 40 100 then "low"
  else "unknown"

/-- `_analyzeIntentAmbiguity`. -/
def analyzeIntentAmbiguity (numChunks : Nat) : String :=
  if numChunks = 0 then "high"
  else if numChunks ≤ 2 then "medium"
  else "low"

/-- `max((float(c.get("score") or 0.0) for c in chunks), default=0.0)`:
`0.0` only for an empty list. -/
def maxScoreOf : List SearchChunk → ℚ
  | [] => 0
  | c :: cs => cs.foldl (fun m x => max m x.score) c.score

/-! ## Image collection (`_collectImagesFromChunks`) -/

/-- One entry of the final `images` list. -/
structure QueryImage where
  image_key : String
  document_id : Option String
  page : Int
  image_index : Option Int
  url : String
  related_chunk_ids : List String
  deriving Repr, DecidableEq

/-- Accumulated per-key image info (`image_map` values). -/
structure ImgInfo where
  document_id : Option String
  page : Int
  image_index : Option Int
  related : List String
  deriving Repr, DecidableEq

/-- Stem of `os.path.splitext`: cut at the last dot, unless every character
between the last slash and that dot is itself a dot. -/
def splitextBase (s : List Char) : List Char :=
  let sepIdx : Int :=
    match listRfind ['/'] s with
    | some i => (i : Int)
    | none => -1
  match listRfind ['.'] s with
  | none => s
  | some di =>
    if sepIdx < (di : Int) then
      let pre := pySliceL s (sepIdx + 1).toNat di
      if pre.all (fun c => c = '.') then s else s.take di
    else s

/-- Decode `document_id`, `page`, `image_index` from an image key
`"{doc}/p{page}_img{n}.{ext}"`.  Mirrors the `try`-block of
`_collectImagesFromChunks`: assignments made before a failing `int()`
survive the swallowed exception. -/
def parseImageKey (key : List Char) :
    Option String × Option Int × Option Int :=
  match splitFirst ['/'] key with
  | none => (none, none, none)
  | some (docPart, filePart) =>
    let doc : Option String := some ⟨docPart⟩
    match splitextBase filePart with
    | 'p' :: body =>
      if listContains "_img".data body then
        match splitFirst "_img".data body with
        | some (pageStr, imgStr) =>
          (match pyInt pageStr with
           | none => (doc, none, none)
           | some pv =>
             match pyInt imgStr with
             | none => (doc, some pv, none)
             | some iv => (doc, some pv, some iv))
        | none => (doc, none, none)
      else (doc, none, none)
    | _ => (doc, none, none)

/-- The image path list of one chunk: `image_paths` metadata is a JSON
string; a decoded list yields its non-null entries (stringified), any other
or undecodable value is kept as a single path string.  Falsy metadata
(`[]`/`""`/missing) contributes nothing. -/
def chunkImagePaths (m : BuiltMeta) : List String :=
  match m.image_paths with
  | none => []
  | some s =>
    if s.data.isEmpty then []
    else
      match loads s.data with
      | Except.ok (Json.arr xs) =>
        (xs.filter (fun x =>
          match x with
          | Json.null => false
          | _ => true)).map pyStrJ
      | Except.ok _ => [s]
      | Except.error _ => [s]

/-- `image_map.setdefault(key, {...})` plus the per-occurrence updates.
`page_from_name or page` uses Python `or`, so a parsed page `0` falls back
to the chunk's meta page; the later `if info.get("page") is None` fix-up is
dead, since meta pages of built chunks are always ints. -/
def addImage (acc : List (String × ImgInfo)) (chunkId : String)
    (metaPage : Int) (p : String) : List (String × ImgInfo) :=
  let parsed := parseImageKey p.data
  let initInfo : ImgInfo :=
    { document_id := parsed.1
      page :=
        match parsed.2.1 with
        | some v => if v = 0 then metaPage else v
        | none => metaPage
      image_index := parsed.2.2
      related := [] }
  let acc1 :=
    if (acc.find? (fun q => q.1 = p)).isSome then acc else acc ++ [(p, initInfo)]
  if chunkId.data.isEmpty then acc1
  else
    acc1.map (fun q =>
      if q.1 = p then (q.1, { q.2 with related := setAddStr q.2.related chunkId })
      else q)

/-- `_collectImagesFromChunks`: gather image paths over all chunks into an
insertion-ordered map keyed by image path, then emit one image entry per
key with a servable URL and sorted related chunk ids. -/
def collectImagesFromChunks (chunks : List SearchChunk) : List QueryImage :=
  let imageMap := chunks.foldl
    (fun acc c =>
      (chunkImagePaths c.meta).foldl
        (fun acc2 p => addImage acc2 c.chunk_id c.meta.page p) acc)
    []
  imageMap.map (fun q =>
    { image_key := q.1
      document_id := q.2.document_id
      page := q.2.page
      image_index := q.2.image_index
      url := "/pdf_images/" ++ q.1
      related_chunk_ids := sortByLe strLeb q.2.related })

/-- `QueryResult`.  `latency_ms` (wall-clock time) is not modelled. -/
structure QueryResult where
  question : String
  normalized_query : String
  answer : String
  supporting_chunks : List QueryContextChunk
  retrieval_confidence : String
  intent_ambiguity_level : String
  need_clarification : Bool
  images : List QueryImage
  deriving Repr

/-! ## TASK 1 query refinement (`services/llm/queryRefine.py`) -/

/-- `_defaultFilters`. -/
def defaultFilters : List (String × Json) :=
  [("doc_type", Json.null), ("section_hint", Json.null),
   ("target_group", Json.null), ("manual_tags", Json.arr [])]

/-- `refineQuery`: call task 1 and build a `QueryRefineResult`.  Only the
`parseJson` call sits in a `try`; a `callQwen` failure propagates
(`RuntimeError`), and so does the `AttributeError` of calling `setdefault`
on a truthy non-dict `filters`/`meta` value.  The non-object `data` branch
mirrors `data.get` on a non-dict; `parseJson` only produces objects, so it
is unreachable. -/
def refineQuery (task1 : CallOutcome) (question : String) :
    Except PyErr QueryRefineResult :=
  match task1 with
  | CallOutcome.httpError => Except.error PyErr.runtimeError
  | CallOutcome.ok raw =>
    match parseJson raw.data with
    | Except.error _ =>
      Except.ok
        { normalized_query := question
          keywords := []
          filters := defaultFilters
          meta := [("original_query", Json.str question)] }
    | Except.ok data =>
      match data with
      | Json.obj dfs =>
        let normalizedQuery :=
          pyStrJ ((dictGet dfs "normalized_query").getD (Json.str question))
        let kw0 := (dictGet dfs "keywords").getD (Json.arr [])
        let kw1 := if jsonTruthy kw0 then kw0 else Json.arr []
        let keywords : List String :=
          match kw1 with
          | Json.arr xs => xs.map pyStrJ
          | v => [pyStrJ v]
        let fv0 := (dictGet dfs "filters").getD Json.null
        let fv1 := if jsonTruthy fv0 then fv0 else Json.obj []
        match fv1 with
        | Json.obj ffs =>
          let f1 := dictSetdefault ffs "doc_type" Json.null
          let f2 := dictSetdefault f1 "section_hint" Json.null
          let f3 := dictSetdefault f2 "target_group" Json.null
          let f4 := dictSetdefault f3 "manual_tags" (Json.arr [])
          let mv0 := (dictGet dfs "meta").getD Json.null
          let mv1 := if jsonTruthy mv0 then mv0 else Json.obj []
          match mv1 with
          | Json.obj mfs =>
            let m1 := dictSetdefault mfs "original_query" (Json.str question)
            let m2 := dictSetdefault m1 "in_scope" (Json.bool true)
            let sv0 := (dictGet m2 "safety").getD Json.null
            let sv1 := if jsonTruthy sv0 then sv0 else Json.obj []
            let sfs :=
              match sv1 with
              | Json.obj fs => fs
              | _ => []
            let s1 := dictSetdefault sfs "block_required" (Json.bool false)
            let s2 := dictSetdefault s1 "category" (Json.str "unknown")
            let s3 := dictSetdefault s2 "reason" Json.null
            let m3 := dictSet m2 "safety" (Json.obj s3)
            Except.ok
              { normalized_query := normalizedQuery
                keywords := keywords
                filters := f4
                meta := m3 }
          | _ => Except.error PyErr.attributeError
        | _ => Except.error PyErr.attributeError
      | _ => Except.error PyErr.attributeError

/-! ## TASK 2 answer generation (`services/llm/answerGeneration.py`) -/

/-- Fixed apology of `_fallbackAnswer` (the earlier chunk-echo assignment
in the source is dead: it is unconditionally overwritten). -/
def fallbackApologyText : String :=
  "답변 생성 중 오류가 발생했습니다. 잠시 후 다시 시도해 주세요.\n이 챗봇은 문서에 근거하지 않은 내용을 임의로 생성하지 않습니다."

/-- `QueryContextChunk` built from a search-result chunk dict. -/
def toCtxChunk (c : SearchChunk) : QueryContextChunk :=
  { chunk_id := some c.chunk_id
    text := c.text
    score := c.score
    meta := CtxMeta.builtM c.meta }

/-- Descending-score comparison (`sorted(..., key=score, reverse=True)`). -/
def scoreDescLe (a b : SearchChunk) : Bool :=
  decide (b.score ≤ a.score)

/-- `_fallbackAnswer`: fixed apology plus the top-5 context chunks by
score. -/
def fallbackAnswer (chunks : List SearchChunk)
    (retrievalConfidence intentAmbiguityLevel : String) : AnswerResult :=
  { answer := fallbackApologyText
    supporting_chunks := ((sortByLe scoreDescLe chunks).take 5).map toCtxChunk
    meta :=
      { retrieval_confidence := retrievalConfidence
        intent_ambiguity_level := intentAmbiguityLevel
        need_clarification := false } }

/-- An element of `rawChunks` in `generateAnswerWithContext`: either a
pipeline chunk dict (`contextChunks`) or a decoded JSON value from the
LLM's own `supporting_chunks`. -/
inductive ChunkLike where
  | fromSearch (c : SearchChunk)
  | fromJson (v : Json)

/-- Score key of the `sorted` call over `rawChunks`
(`float(c.get("score") or 0.0)`); `none` models a raised exception, which
the surrounding `try` turns into the unsorted prefix. -/
def chunkScoreKey : ChunkLike → Option ℚ
  | ChunkLike.fromSearch c => some c.score
  | ChunkLike.fromJson v =>
    match v with
    | Json.obj fs =>
      let sv := (dictGet fs "score").getD Json.null
      pyFloatJ (if jsonTruthy sv then sv else Json.num "0")
    | _ => none

def chunkLikeDescLe (a b : ChunkLike) : Bool :=
  decide (((chunkScoreKey b).getD 0) ≤ ((chunkScoreKey a).getD 0))

/-- The `QueryContextChunk(...)` constructor loop body for one `rawChunks`
element; errors model the uncaught `AttributeError`/`ValueError`/
`TypeError` of `c.get` / `float()` / `dict()` on ill-shaped LLM output.
(A non-string `chunk_id` is kept by Python as-is; it is rendered here —
no claim reaches that case.) -/
def toCtxChunkLike : ChunkLike → Except PyErr QueryContextChunk
  | ChunkLike.fromSearch c => Except.ok (toCtxChunk c)
  | ChunkLike.fromJson v =>
    match v with
    | Json.obj fs =>
      let cid : Option String :=
        match dictGet fs "chunk_id" with
        | none => none
        | some Json.null => none
        | some (Json.str s) => some s
        | some w => some (pyStrJ w)
      let tv := (dictGet fs "text").getD Json.null
      let text := pyStrJ (if jsonTruthy tv then tv else Json.str "")
      let sv0 := (dictGet fs "score").getD Json.null
      let sv := if jsonTruthy sv0 then sv0 else Json.num "0"
      (match pyFloatJ sv with
       | none => Except.error PyErr.valueError
       | some qv =>
         let mv := (dictGet fs "meta").getD Json.null
         match (if jsonTruthy mv then mv else Json.obj []) with
         | Json.obj ms =>
           Except.ok
             { chunk_id := cid, text := text, score := qv
               meta := CtxMeta.jsonM ms }
         | _ => Except.error PyErr.typeError)
    | _ => Except.error PyErr.attributeError

/-- `generateAnswerWithContext`: call task 2; on parse failure or an empty
answer use `_fallbackAnswer`; otherwise assemble the answer, the rag meta
(with defaults), and the top-5 supporting chunks.  A `callQwen` failure
propagates, as do the shape errors modelled in `toCtxChunkLike` and the
`setdefault`-on-non-dict `AttributeError` for a truthy non-object
`meta`. -/
def generateAnswerWithContext (task2 : CallOutcome)
    (retrievalConfidence intentAmbiguityLevel : String)
    (contextChunks : List SearchChunk) : Except PyErr AnswerResult :=
  match task2 with
  | CallOutcome.httpError => Except.error PyErr.runtimeError
  | CallOutcome.ok raw =>
    match parseJson raw.data with
    | Except.error _ =>
      Except.ok (fallbackAnswer contextChunks retrievalConfidence intentAmbiguityLevel)
    | Except.ok data =>
      match data with
      | Json.obj dfs =>
        let av := (dictGet dfs "answer").getD Json.null
        let answerText := pyStrip (pyStrJ (if jsonTruthy av then av else Json.str ""))
        if answerText.data.isEmpty then
          Except.ok (fallbackAnswer contextChunks retrievalConfidence intentAmbiguityLevel)
        else
          let answerable := jsonTruthy ((dictGet dfs "answerable").getD (Json.bool true))
          let safetyBlocked := jsonTruthy ((dictGet dfs "safety_blocked").getD (Json.bool false))
          let sc0 := (dictGet dfs "supporting_chunks").getD Json.null
          let rawChunksE : Except PyErr (List ChunkLike) :=
            if jsonTruthy sc0 then
              match sc0 with
              | Json.arr xs => Except.ok (xs.map ChunkLike.fromJson)
              | _ => Except.error PyErr.typeError
            else Except.ok (contextChunks.map ChunkLike.fromSearch)
          match rawChunksE with
          | Except.error e => Except.error e
          | Except.ok rawChunks =>
            let mv0 := (dictGet dfs "meta").getD Json.null
            let mv1 := if jsonTruthy mv0 then mv0 else Json.obj []
            match mv1 with
            | Json.obj rfs =>
              let r1 := dictSetdefault rfs "retrieval_confidence" (Json.str retrievalConfidence)
              let r2 := dictSetdefault r1 "intent_ambiguity_level" (Json.str intentAmbiguityLevel)
              let r3 := dictSetdefault r2 "need_clarification" (Json.bool false)
              let r4 := dictSetdefault r3 "answerable" (Json.bool answerable)
              let r5 := dictSetdefault r4 "safety_blocked" (Json.bool safetyBlocked)
              let limited :=
                if rawChunks.all (fun c => (chunkScoreKey c).isSome) then
                  (sortByLe chunkLikeDescLe rawChunks).take 5
                else rawChunks.take 5
              let rcv := (dictGet r5 "retrieval_confidence").getD Json.null
              let iav := (dictGet r5 "intent_ambiguity_level").getD Json.null
              let ncv := (dictGet r5 "need_clarification").getD Json.null
              let meta : RagMeta :=
                { retrieval_confidence :=
                    pyStrJ (if jsonTruthy rcv then rcv else Json.str "unknown")
                  intent_ambiguity_level :=
                    pyStrJ (if jsonTruthy iav then iav else Json.str "unknown")
                  need_clarification := jsonTruthy ncv }
              match limited.mapM toCtxChunkLike with
              | Except.error e => Except.error e
              | Except.ok ctxChunks =>
                Except.ok
                  { answer := answerText
                    supporting_chunks := ctxChunks
                    meta := meta }
            | _ => Except.error PyErr.attributeError
      | _ => Except.error PyErr.attributeError

/-! ## `progressQuery` (`services/queryService.py`) -/

/-- Outcomes of the external calls one `progressQuery` run can make. -/
structure QueryEnv where
  task1 : CallOutcome
  task2 : CallOutcome
  store : Option (List ChromaRecord)
  dist : ChromaRecord → ℚ
  embedOk : Bool

/-- Which outbound pipeline stages ran, in order. -/
inductive ExtCall where
  | refineLlm
  | search
  | answerLlm
  deriving Repr, DecidableEq

/-- `bool(safetyMeta.get("block_required") or False)` where `safetyMeta =
(norm.meta or {}).get("safety") or {}`.  A truthy non-dict safety value
would make `safetyMeta.get` raise; `refineQuery` never produces one. -/
def blockRequiredOf (meta : List (String × Json)) : Except PyErr Bool :=
  let sv := (dictGet meta "safety").getD Json.null
  match (if jsonTruthy sv then sv else Json.obj []) with
  | Json.obj sfs => Except.ok (jsonTruthy ((dictGet sfs "block_required").getD Json.null))
  | _ => Except.error PyErr.attributeError

/-- Fixed policy-refusal answer of the safety-block branch. -/
def fixedBlockAnswer : String :=
  "이 챗봇은 업로드된 문서를 기반으로 한 업무 질의응답용입니다.\n해당 질문은 서비스 정책상 답변하지 않습니다."

/-- Fixed "insufficient evidence" answer of the low-confidence branch. -/
def fixedLowConfidenceAnswer : String :=
  "이 챗봇은 업로드된 문서를 기반으로만 답변합니다.\n현재 질문과 직접적으로 연관된 문서 내용을 찾지 못해, 임의로 추측해서 답변하지 않겠습니다."

/-- Sort key of the LLM-context ordering: positive-score hits first, then
`(document_id or "", order_index if not None else 10^9)`. -/
def llmCtxKey (c : SearchChunk) : Nat × String × Int :=
  ((if 0 < c.score then 0 else 1),
   (match c.meta.document_id with
    | some s => s
    | none => ""),
   c.meta.order_index.getD (10 ^ 9))

def llmCtxLe (a b : SearchChunk) : Bool :=
  let ka := llmCtxKey a
  let kb := llmCtxKey b
  if ka.1 = kb.1 then
    (if ka.2.1 = kb.2.1 then decide (ka.2.2 ≤ kb.2.2) else strLeb ka.2.1 kb.2.1)
  else decide (ka.1 ≤ kb.1)

/-- `progressQuery`: the STEP 2 pipeline.  Returns the result (or the
Python exception that escaped) together with the ordered list of external
stages that ran.  The `debug` printing, logging and latency measurement of
the source are pure side effects and are not modelled. -/
def progressQuery (env : QueryEnv) (chatbotId question : String)
    (userGroup : Option String) (topK : Nat) :
    Except PyErr QueryResult × List ExtCall :=
  let q := pyStrip question
  if q.data.isEmpty then (Except.error PyErr.valueError, [])
  else
    match refineQuery env.task1 q with
    | Except.error e => (Except.error e, [ExtCall.refineLlm])
    | Except.ok norm =>
      let normalizedQuery := norm.normalized_query
      match blockRequiredOf norm.meta with
      | Except.error e => (Except.error e, [ExtCall.refineLlm])
      | Except.ok blockRequired =>
        if blockRequired then
          (Except.ok
            { question := q
              normalized_query := normalizedQuery
              answer := fixedBlockAnswer
              supporting_chunks := []
              retrieval_confidence := "blocked"
              intent_ambiguity_level := "high"
              need_clarification := false
              images := [] },
           [ExtCall.refineLlm])
        else
          let rawChunks :=
            searchTopKWithNeighbors env.store env.dist env.embedOk chatbotId
              userGroup topK 2
          let chunks := sortByLe scoreDescLe rawChunks
          let maxScore := maxScoreOf chunks
          let retrievalConfidence := estimateRetrievalConfidence maxScore
          let intentAmbiguityLevel := analyzeIntentAmbiguity chunks.length
          if confidenceBelowMinimum retrievalConfidence then
            (Except.ok
              { question := q
                normalized_query := normalizedQuery
                answer := fixedLowConfidenceAnswer
                supporting_chunks := chunks.map toCtxChunk
                retrieval_confidence := retrievalConfidence
                intent_ambiguity_level := intentAmbiguityLevel
                need_clarification := false
                images := collectImagesFromChunks chunks },
             [ExtCall.refineLlm, ExtCall.search])
          else
            let contextChunksForLLM := (sortByLe llmCtxLe chunks).take 10
            let images := collectImagesFromChunks contextChunksForLLM
            match
              generateAnswerWithContext env.task2 retrievalConfidence
                intentAmbiguityLevel contextChunksForLLM
            with
            | Except.error e =>
              (Except.error e, [ExtCall.refineLlm, ExtCall.search, ExtCall.answerLlm])
            | Except.ok answerResult =>
              (Except.ok
                { question := q
                  normalized_query := normalizedQuery
                  answer := answerResult.answer
                  supporting_chunks := answerResult.supporting_chunks
                  retrieval_confidence := answerResult.meta.retrieval_confidence
                  intent_ambiguity_level := answerResult.meta.intent_ambiguity_level
                  need_clarification := answerResult.meta.need_clarification
                  images := images },
               [ExtCall.refineLlm, ExtCall.search, ExtCall.answerLlm])

/-! ## Claim theorems -/

/-- C6: `parseJson` attempts recovery in order — (1) parse the whole
trimmed string when it starts with `{` and ends with `}`; (2) parse the
contents of the first fenced code block; (3) parse the substring from the
first `{` to the last `}`, stripping a trailing stray fence — and raises a
`ValueError` if and only if all attempts fail.  In particular it returns
the embedded object for inputs surrounded by prose or code fences and
raises for inputs containing no JSON object. -/
theorem spec_C6 :
    (∀ raw : List Char,
      (parseJson raw).isOk = true ↔
        ((parseJsonWhole (pyStripL raw)).isSome = true ∨
         (parseJsonFence (pyStripL raw)).isSome = true ∨
         (parseJsonBraces (pyStripL raw)).isOk = true)) ∧
    parseJson "  \x7b\"a\":1\x7d  ".data = Except.ok (Json.obj [("a", Json.num "1")]) ∧
    parseJson "intro ```json\n\x7b\"a\":1\x7d\n``` outro".data =
      Except.ok (Json.obj [("a", Json.num "1")]) ∧
    (parseJson "no json here".data).isOk = false := by
  refine ⟨?_, rfl, rfl, rfl⟩
  intro raw
  unfold parseJson
  by_cases h : pyStripL raw = []
  · rw [h]
    simp only [if_pos]
    constructor
    · intro hh
      exact absurd hh (by decide)
    · intro hh
      exact absurd hh (by decide)
  · rw [if_neg h]
    rcases h1 : parseJsonWhole (pyStripL raw) with _ | v
    · rcases h2 : parseJsonFence (pyStripL raw) with _ | v2
      · simp [h1, h2]
      · simp only [h1, h2]
        constructor
        · intro _
          right
          left
          rfl
        · intro _
          rfl
    · simp only [h1]
      constructor
      · intro _
        left
        rfl
      · intro _
        rfl

/-- C10: `progressQuery` raises `ValueError` on a blank question before any
refinement, search, or LLM call (empty call trace), and for every non-blank
question it proceeds into the pipeline, the refinement call coming
first. -/
theorem spec_C10 (env : QueryEnv) (chatbotId question : String)
    (userGroup : Option String) (topK : Nat) :
    ((pyStrip question).data.isEmpty = true →
      progressQuery env chatbotId question userGroup topK =
        (Except.error PyErr.valueError, [])) ∧
    ((pyStrip question).data.isEmpty = false →
      (progressQuery env chatbotId question userGroup topK).2.head? =
        some ExtCall.refineLlm) := by
  constructor
  · intro h
    unfold progressQuery
    rw [if_pos h]
  · intro h
    unfold progressQuery
    rw [if_neg (by simp [h])]
    rcases hr : refineQuery env.task1 (pyStrip question) with e | norm
    · rfl
    · simp only [hr]
      rcases hb : blockRequiredOf norm.meta with e | br
      · simp [hb]
      · simp only [hb]
        rcases br with _ | _
        · by_cases hc :
              confidenceBelowMinimum
                (estimateRetrievalConfidence
                  (maxScoreOf (sortByLe scoreDescLe
                    (searchTopKWithNeighbors env.store env.dist env.embedOk
                      chatbotId userGroup topK 2)))) = true
          · simp [hc]
          · rcases hg : generateAnswerWithContext env.task2
                (estimateRetrievalConfidence
                  (maxScoreOf (sortByLe scoreDescLe
                    (searchTopKWithNeighbors env.store env.dist env.embedOk
                      chatbotId userGroup topK 2))))
                (analyzeIntentAmbiguity (sortByLe scoreDescLe
                    (searchTopKWithNeighbors env.store env.dist env.embedOk
                      chatbotId userGroup topK 2)).length)
                (List.take 10 (sortByLe llmCtxLe (sortByLe scoreDescLe
                    (searchTopKWithNeighbors env.store env.dist env.embedOk
                      chatbotId userGroup topK 2)))) with e | ar
            · simp [hc, hg]
            · simp [hc, hg]
        · simp

/-- A fixed environment for closed instances: well-formed task-1 output,
empty task-2 output, no store. -/
def envPlain : QueryEnv :=
  { task1 := CallOutcome.ok "\x7b\x7d"
    task2 := CallOutcome.ok ""
    store := none
    dist := fun _ => 0
    embedOk := true }

/-- C10 witness: a whitespace-only question raises before any call; a
non-blank question reaches refinement first. -/
theorem spec_C10_witness :
    progressQuery envPlain "cb" "   " none 5 =
      (Except.error PyErr.valueError, []) ∧
    (progressQuery envPlain "cb" "hi" none 5).2.head? = some ExtCall.refineLlm :=
  ⟨(spec_C10 envPlain "cb" "   " none 5).1 rfl,
   (spec_C10 envPlain "cb" "hi" none 5).2 rfl⟩

/-- C3: when task-1 refinement reports `block_required`, `progressQuery`
short-circuits after the refinement call (no search, no answer synthesis):
the fixed policy-refusal answer, no supporting chunks, no images. -/
theorem spec_C3 (env : QueryEnv) (chatbotId question : String)
    (userGroup : Option String) (topK : Nat) (norm : QueryRefineResult)
    (hq : (pyStrip question).data.isEmpty = false)
    (hr : refineQuery env.task1 (pyStrip question) = Except.ok norm)
    (hb : blockRequiredOf norm.meta = Except.ok true) :
    progressQuery env chatbotId question userGroup topK =
      (Except.ok
        { question := pyStrip question
          normalized_query := norm.normalized_query
          answer := fixedBlockAnswer
          supporting_chunks := []
          retrieval_confidence := "blocked"
          intent_ambiguity_level := "high"
          need_clarification := false
          images := [] },
       [ExtCall.refineLlm]) := by
  unfold progressQuery
  rw [if_neg (by simp [hq])]
  simp [hr, hb]

/-- Environment whose task-1 call reports a safety block. -/
def envBlock : QueryEnv :=
  { task1 := CallOutcome.ok "\x7b\"normalized_query\": \"refined q\", \"meta\": \x7b\"safety\": \x7b\"block_required\": true, \"reason\": \"policy\"\x7d\x7d\x7d"
    task2 := CallOutcome.ok ""
    store := none
    dist := fun _ => 0
    embedOk := true }

/-- The refinement result `envBlock` produces. -/
def wNormBlock : QueryRefineResult :=
  { normalized_query := "refined q"
    keywords := []
    filters := [("doc_type", Json.null), ("section_hint", Json.null),
                ("target_group", Json.null), ("manual_tags", Json.arr [])]
    meta := [("safety",
              Json.obj [("block_required", Json.bool true), ("reason", Json.str "policy"),
                        ("category", Json.str "unknown")]),
             ("original_query", Json.str "what is E3?"),
             ("in_scope", Json.bool true)] }

/-- C3 witness: the blocked pipeline on a concrete environment. -/
theorem spec_C3_witness :
    progressQuery envBlock "cb" "what is E3?" none 5 =
      (Except.ok
        { question := "what is E3?"
          normalized_query := "refined q"
          answer := fixedBlockAnswer
          supporting_chunks := []
          retrieval_confidence := "blocked"
          intent_ambiguity_level := "high"
          need_clarification := false
          images := [] },
       [ExtCall.refineLlm]) :=
  spec_C3 envBlock "cb" "what is E3?" none 5 wNormBlock rfl rfl rfl

/-- Environment whose task-1 HTTP call fails (`callQwen` raises
`RuntimeError`). -/
def envHttpFail : QueryEnv :=
  { task1 := CallOutcome.httpError
    task2 := CallOutcome.ok ""
    store := none
    dist := fun _ => 0
    embedOk := true }

/-- C1 counterexample: an HTTP failure of the task-1 refinement call makes
`progressQuery` raise (`RuntimeError`) instead of returning a
`QueryResult` — the claim's "including HTTP call failures" part is false on
the code: `refineQuery` only wraps `parseJson` in `try`, not `callQwen`. -/
theorem spec_C1_counterexample :
    (progressQuery envHttpFail "cb" "hello" none 5).1 =
      Except.error PyErr.runtimeError := rfl

/-- C1 (amended): when both LLM HTTP calls return (with any content), and
the content of each is unparseable, the fallbacks engage and
`progressQuery` returns a `QueryResult` (no raise); HTTP-level failures, by
contrast, propagate to the caller (see the counterexample). -/
theorem spec_C1 (env : QueryEnv) (chatbotId question : String)
    (userGroup : Option String) (topK : Nat) (r1 r2 : String)
    (h1 : env.task1 = CallOutcome.ok r1) (h2 : env.task2 = CallOutcome.ok r2)
    (hp1 : (parseJson r1.data).isOk = false)
    (hp2 : (parseJson r2.data).isOk = false)
    (hq : (pyStrip question).data.isEmpty = false) :
    (progressQuery env chatbotId question userGroup topK).1.isOk = true := by
  have hr : refineQuery env.task1 (pyStrip question) =
      Except.ok
        { normalized_query := pyStrip question
          keywords := []
          filters := defaultFilters
          meta := [("original_query", Json.str (pyStrip question))] } := by
    rw [h1]
    rcases hpj : parseJson r1.data with e | v
    · simp only [refineQuery, hpj]
    · rw [hpj] at hp1
      simp [Except.isOk, Except.toBool] at hp1
  have hg : ∀ rc ia ctx, generateAnswerWithContext env.task2 rc ia ctx =
      Except.ok (fallbackAnswer ctx rc ia) := by
    intro rc ia ctx
    rw [h2]
    rcases hpj : parseJson r2.data with e | v
    · simp only [generateAnswerWithContext, hpj]
    · rw [hpj] at hp2
      simp [Except.isOk, Except.toBool] at hp2
  have hb : blockRequiredOf [("original_query", Json.str (pyStrip question))] =
      Except.ok false := rfl
  unfold progressQuery
  rw [if_neg (by simp [hq])]
  simp only [hr, hb]
  by_cases hc :
      confidenceBelowMinimum
        (estimateRetrievalConfidence
          (maxScoreOf (sortByLe scoreDescLe
            (searchTopKWithNeighbors env.store env.dist env.embedOk
              chatbotId userGroup topK 2)))) = true
  · simp only [hc, if_true]
    rfl
  · simp only [hc, if_false, Bool.not_eq_true] at *
    simp only [hc, hg]
    rfl

/-- Environment whose two LLM calls both return unparseable prose. -/
def envParseFail : QueryEnv :=
  { task1 := CallOutcome.ok "task one returned prose"
    task2 := CallOutcome.ok "task two returned prose"
    store := none
    dist := fun _ => 0
    embedOk := true }

/-- C1 witness: unparseable model output on both tasks still yields a
result. -/
theorem spec_C1_witness :
    (progressQuery envParseFail "cb" "hello" none 5).1.isOk = true :=
  spec_C1 envParseFail "cb" "hello" none 5 "task one returned prose"
    "task two returned prose" rfl rfl rfl rfl rfl
/-- C4: when the maximum score across retrieved chunks is strictly below
the low threshold `0.40` (= `Rat.divInt 40 100`), `progressQuery` makes no
answer-synthesis call (trace stops at search), returns the fixed
"insufficient evidence" answer with confidence `"unknown"` (below the
minimum level `"low"` in the order unknown<low<medium<high), and still
attaches all retrieved chunks (the sorted list is a permutation of the
retrieval result) and the images found in their metadata. -/
theorem spec_C4 (env : QueryEnv) (chatbotId question : String)
    (userGroup : Option String) (topK : Nat) (norm : QueryRefineResult)
    (hq : (pyStrip question).data.isEmpty = false)
    (hr : refineQuery env.task1 (pyStrip question) = Except.ok norm)
    (hb : blockRequiredOf norm.meta = Except.ok false)
    (hscore :
      maxScoreOf (sortByLe scoreDescLe
        (searchTopKWithNeighbors env.store env.dist env.embedOk chatbotId
          userGroup topK 2)) < Rat.divInt 40 100) :
    progressQuery env chatbotId question userGroup topK =
      (Except.ok
        { question := pyStrip question
          normalized_query := norm.normalized_query
          answer := fixedLowConfidenceAnswer
          supporting_chunks :=
            (sortByLe scoreDescLe
              (searchTopKWithNeighbors env.store env.dist env.embedOk chatbotId
                userGroup topK 2)).map toCtxChunk
          retrieval_confidence := "unknown"
          intent_ambiguity_level :=
            analyzeIntentAmbiguity
              (sortByLe scoreDescLe
                (searchTopKWithNeighbors env.store env.dist env.embedOk chatbotId
                  userGroup topK 2)).length
          need_clarification := false
          images :=
            collectImagesFromChunks
              (sortByLe scoreDescLe
                (searchTopKWithNeighbors env.store env.dist env.embedOk chatbotId
                  userGroup topK 2)) },
       [ExtCall.refineLlm, ExtCall.search]) ∧
    (sortByLe scoreDescLe
      (searchTopKWithNeighbors env.store env.dist env.embedOk chatbotId
        userGroup topK 2)).Perm
      (searchTopKWithNeighbors env.store env.dist env.embedOk chatbotId
        userGroup topK 2) := by
  have e85 : (Rat.divInt 85 100 : ℚ) = 85 / 100 := by
    rw [Rat.divInt_eq_div]
    norm_num
  have e65 : (Rat.divInt 65 100 : ℚ) = 65 / 100 := by
    rw [Rat.divInt_eq_div]
    norm_num
  have e40 : (Rat.divInt 40 100 : ℚ) = 40 / 100 := by
    rw [Rat.divInt_eq_div]
    norm_num
  rw [e40] at hscore
  have hconf :
      estimateRetrievalConfidence
        (maxScoreOf (sortByLe scoreDescLe
          (searchTopKWithNeighbors env.store env.dist env.embedOk chatbotId
            userGroup topK 2))) = "unknown" := by
    unfold estimateRetrievalConfidence
    rw [if_neg (by rw [e85]; intro hcon; simp at hcon; linarith),
        if_neg (by rw [e65]; intro hcon; simp at hcon; linarith),
        if_neg (by rw [e40]; intro hcon; simp at hcon; linarith)]
  have hlow : confidenceBelowMinimum "unknown" = true := rfl
  refine ⟨?_, sortByLe_perm _ _⟩
  unfold progressQuery
  rw [if_neg (by simp [hq])]
  simp only [hr, hb]
  simp [hconf, hlow]

def lowConfMetaRaw : MetaRaw :=
  { chunk_id := some "DOC1_p3_c0", filename := some "m.pdf", page := some 3,
    document_id := some "DOC1", manual_id := none, chatbot_id := some "cb",
    process_tag := some "body", user_group := some "default",
    user_group_tags := some "default",
    image_paths := some "[\"DOC1/p3_img1.png\"]",
    order_index := some 7, page_chunk_order := some 0 }

def lowConfStore : List ChromaRecord :=
  [{ rid := "DOC1_p3_c0", document := "E3 error description", meta := lowConfMetaRaw }]

def envLowConf : QueryEnv :=
  { task1 := CallOutcome.ok "\x7b\x7d"
    task2 := CallOutcome.ok ""
    store := some lowConfStore
    dist := fun _ => 2
    embedOk := true }

def wNormLowConf : QueryRefineResult :=
  { normalized_query := "what is E3?"
    keywords := []
    filters := defaultFilters
    meta := [("original_query", Json.str "what is E3?"),
             ("in_scope", Json.bool true),
             ("safety", Json.obj [("block_required", Json.bool false),
                                  ("category", Json.str "unknown"),
                                  ("reason", Json.null)])] }

/-- C4 witness: one stored chunk at distance 2 (score 1/3 < 0.40) — the
fixed answer is returned with the chunk and its image attached, with no
answer-synthesis call. -/
theorem spec_C4_witness :
    progressQuery envLowConf "cb" "what is E3?" (some "default") 5 =
      (Except.ok
        { question := "what is E3?"
          normalized_query := "what is E3?"
          answer := fixedLowConfidenceAnswer
          supporting_chunks :=
            [{ chunk_id := some "DOC1_p3_c0"
               text := "E3 error description"
               score := Rat.divInt 1 3
               meta := CtxMeta.builtM
                 { filename := some "m.pdf"
                   page := 3
                   document_id := some "DOC1"
                   manual_id := some "DOC1"
                   chatbot_id := some "cb"
                   process_tag := some "body"
                   user_group_tags := some "default"
                   image_paths := some "[\"DOC1/p3_img1.png\"]"
                   order_index := some 7
                   page_chunk_order := some 0 } }]
          retrieval_confidence := "unknown"
          intent_ambiguity_level := "medium"
          need_clarification := false
          images :=
            [{ image_key := "DOC1/p3_img1.png"
               document_id := some "DOC1"
               page := 3
               image_index := some 1
               url := "/pdf_images/DOC1/p3_img1.png"
               related_chunk_ids := ["DOC1_p3_c0"] }] },
       [ExtCall.refineLlm, ExtCall.search]) :=
  (spec_C4 envLowConf "cb" "what is E3?" (some "default") 5 wNormLowConf rfl rfl
    rfl (by decide)).1

theorem chunkLoop_fuel_eq (text : List Char) (page : Nat) (cb doc : String)
    (fn : Option String) (tags : List String) (M O : Nat) (hMO : O < M) :
    ∀ fuel1 fuel2 start order,
      text.length - start ≤ fuel1 → text.length - start ≤ fuel2 →
      chunkLoop fuel1 text page cb doc fn tags M O start order =
      chunkLoop fuel2 text page cb doc fn tags M O start order := by
  intro fuel1
  induction fuel1 with
  | zero =>
    intro fuel2 start order h1 h2
    have hts : ¬ start < text.length := by omega
    cases fuel2 with
    | zero => rfl
    | succ f2 =>
      simp only [chunkLoop]
      rw [if_neg hts]
  | succ f1 ih =>
    intro fuel2 start order h1 h2
    cases fuel2 with
    | zero =>
      have hts : ¬ start < text.length := by omega
      simp only [chunkLoop]
      rw [if_neg hts]
    | succ f2 =>
      simp only [chunkLoop]
      by_cases hts : start < text.length
      · rw [if_pos hts, if_pos hts]
        by_cases he :
            (pyStripL (pySliceL text start (min (start + M) text.length))).isEmpty = true
        · simp [he]
        · simp only [he, Bool.false_eq_true, if_false]
          by_cases hend : text.length ≤ min (start + M) text.length
          · simp [hend]
          · simp only [hend, if_false]
            have hmin : min (start + M) text.length = start + M := by omega
            exact congrArg _ (ih f2 (min (start + M) text.length - O) (order + 1)
              (by omega) (by omega))
      · rw [if_neg hts, if_neg hts]

/-- C7: for `0 < maxChars` and `0 ≤ overlap < maxChars` the chunking
window loop terminates on every input: whenever an iteration does not reach
the end of the text, the window start advances by exactly
`maxChars - overlap ≥ 1`; consequently `text.length` iterations of fuel
always suffice (`chunkLoop` is insensitive to any fuel of at least
`text.length - start`). -/
theorem spec_C7 (text : List Char) (maxChars overlap : Nat)
    (_hM : 0 < maxChars) (hMO : overlap < maxChars) :
    (∀ start, min (start + maxChars) text.length < text.length →
      (min (start + maxChars) text.length) - overlap =
        start + (maxChars - overlap) ∧
      start + 1 ≤ (min (start + maxChars) text.length) - overlap) ∧
    (∀ fuel page cb doc fn tags start order,
      text.length - start ≤ fuel →
      chunkLoop fuel text page cb doc fn tags maxChars overlap start order =
      chunkLoop (text.length - start) text page cb doc fn tags maxChars overlap
        start order) := by
  constructor
  · intro start h
    omega
  · intro fuel page cb doc fn tags start order h
    exact chunkLoop_fuel_eq text page cb doc fn tags maxChars overlap hMO fuel
      (text.length - start) start order h (Nat.le_refl _)

theorem dropWhile_eq_self_of_all {p : Char → Bool} (l : List Char)
    (h : ∀ c ∈ l, p c = false) : l.dropWhile p = l := by
  cases l with
  | nil => rfl
  | cons a as =>
    rw [List.dropWhile_cons]
    simp [h a (by simp)]

theorem pyStripL_eq_self (l : List Char)
    (h : ∀ c ∈ l, pyIsSpace c = false) : pyStripL l = l := by
  unfold pyStripL
  rw [dropWhile_eq_self_of_all l h]
  rw [dropWhile_eq_self_of_all l.reverse (by
    intro c hc
    exact h c (List.mem_reverse.mp hc))]
  exact List.reverse_reverse l

theorem pySliceL_length (s : List Char) (a b : Nat) :
    (pySliceL s a b).length = min b s.length - a := by
  unfold pySliceL
  rw [List.length_drop, List.length_take]

theorem mem_pySliceL {s : List Char} {a b : Nat} {c : Char}
    (h : c ∈ pySliceL s a b) : c ∈ s := by
  unfold pySliceL at h
  exact List.take_subset _ _ (List.drop_subset _ _ h)

theorem pySliceL_drop (s : List Char) (a b k : Nat) :
    (pySliceL s a b).drop k = pySliceL s (a + k) b := by
  unfold pySliceL
  rw [List.drop_drop]

theorem pySliceL_take (s : List Char) (a b k : Nat) :
    (pySliceL s a b).take k = pySliceL s a (min (a + k) b) := by
  unfold pySliceL
  rw [List.take_drop, List.take_take]

theorem chunkLoop_spec (text : List Char) (page : Nat) (cb doc : String)
    (fn : Option String) (tags : List String) (M O : Nat)
    (hMO : O < M) (hws : ∀ c ∈ text, pyIsSpace c = false) :
    ∀ fuel start order, start + O < text.length → text.length - start ≤ fuel →
      (chunkLoop fuel text page cb doc fn tags M O start order).length =
        (text.length - start - O + (M - O) - 1) / (M - O) ∧
      ∀ i (hi : i < (chunkLoop fuel text page cb doc fn tags M O start order).length),
        ((chunkLoop fuel text page cb doc fn tags M O start order).get ⟨i, hi⟩).text =
          pySliceL text (start + i * (M - O))
            (min (start + i * (M - O) + M) text.length) := by
  intro fuel
  induction fuel with
  | zero =>
    intro start order h1 h2
    omega
  | succ f ih =>
    intro start order h1 h2
    have hts : start < text.length := by omega
    have hslice :
        pyStripL (pySliceL text start (min (start + M) text.length)) =
          pySliceL text start (min (start + M) text.length) :=
      pyStripL_eq_self _ (fun c hc => hws c (mem_pySliceL hc))
    have hlen0 : (pySliceL text start (min (start + M) text.length)).length =
        min (start + M) text.length - start := by
      rw [pySliceL_length]
      omega
    have hpos : 0 < (pySliceL text start (min (start + M) text.length)).length := by
      omega
    have hne : (pySliceL text start (min (start + M) text.length)).isEmpty = false := by
      cases hl : pySliceL text start (min (start + M) text.length) with
      | nil =>
        rw [hl] at hpos
        simp at hpos
      | cons x xs => rfl
    by_cases hend : text.length ≤ min (start + M) text.length
    · have hout : chunkLoop (f + 1) text page cb doc fn tags M O start order =
          [{ chunk_id := mkChunkId doc page order
             text := pySliceL text start (min (start + M) text.length)
             page := page
             order := order
             meta :=
               { filename := fn
                 page := page
                 document_id := doc
                 chatbot_id := cb
                 user_group_tags := tags
                 process_tag := "body"
                 chunk_order := order } }] := by
        simp only [chunkLoop, if_pos hts, hslice, hne, Bool.false_eq_true,
          if_false, if_pos hend]
      rw [hout]
      constructor
      · show 1 = _
        exact (Nat.div_eq_of_lt_le (by omega) (by omega)).symm
      · intro i hi
        have hi0 : i = 0 := by
          simp only [List.length_singleton] at hi
          omega
        subst hi0
        show pySliceL text start (min (start + M) text.length) = _
        rw [Nat.zero_mul, Nat.add_zero]
    · have hmin : min (start + M) text.length = start + M := by omega
      have hslice2 : pyStripL (pySliceL text start (start + M)) =
          pySliceL text start (start + M) := by
        rw [← hmin]
        exact hslice
      have hne2 : (pySliceL text start (start + M)).isEmpty = false := by
        rw [← hmin]
        exact hne
      have hend2 : ¬ text.length ≤ start + M := by omega
      have hout : chunkLoop (f + 1) text page cb doc fn tags M O start order =
          { chunk_id := mkChunkId doc page order
            text := pySliceL text start (start + M)
            page := page
            order := order
            meta :=
              { filename := fn
                page := page
                document_id := doc
                chatbot_id := cb
                user_group_tags := tags
                process_tag := "body"
                chunk_order := order } } ::
            chunkLoop f text page cb doc fn tags M O
              (start + M - O) (order + 1) := by
        simp only [chunkLoop, if_pos hts, hmin, hslice2, hne2, Bool.false_eq_true,
          if_false, if_neg hend2]
      obtain ⟨ihlen, ihget⟩ := ih (start + M - O) (order + 1) (by omega) (by omega)
      rw [hout]
      constructor
      · rw [List.length_cons, ihlen]
        have heq : text.length - start - O + (M - O) - 1 =
            (text.length - (start + M - O) - O + (M - O) - 1) + (M - O) := by
          omega
        rw [heq, Nat.add_div_right _ (by omega)]
      · intro i hi
        cases i with
        | zero =>
          show pySliceL text start (start + M) = _
          rw [Nat.zero_mul, Nat.add_zero, hmin]
        | succ j =>
          have harg : start + M - O + j * (M - O) = start + (j + 1) * (M - O) := by
            rw [Nat.succ_mul]
            omega
          rw [List.get_cons_succ, ihget j _, harg]

/-- C2 (amended): for a page text of length `L` all of whose characters
are non-whitespace, with `maxChars = M > 0`, `0 ≤ overlap = O < M`, and
`O < L`, the chunker emits exactly `ceil((L-O)/(M-O))` chunks (written as
`(L - O + (M-O) - 1) / (M-O)` in `Nat` arithmetic); every non-final
chunk's trailing `O` characters equal the next chunk's leading `O`
characters; and the last chunk's window ends exactly at index `L`.  The
whitespace condition and `O < L` are forced by the counterexample: the
source strips each slice and breaks out of the loop on a slice that strips
to empty, and emits one chunk even when `L ≤ O`. -/
theorem spec_C2 (pageText : List Char) (page : Nat) (cb doc : String)
    (fn : Option String) (tags : List String) (M O : Nat)
    (hMO : O < M)
    (hws : ∀ c ∈ pageText, pyIsSpace c = false)
    (hOL : O < pageText.length) :
    (chunkPageText page pageText cb doc fn tags M O).length =
      (pageText.length - O + (M - O) - 1) / (M - O) ∧
    (∀ i (hi : i < (chunkPageText page pageText cb doc fn tags M O).length)
        (hi2 : i + 1 < (chunkPageText page pageText cb doc fn tags M O).length),
      ((chunkPageText page pageText cb doc fn tags M O).get ⟨i, hi⟩).text.drop
          (((chunkPageText page pageText cb doc fn tags M O).get
              ⟨i, hi⟩).text.length - O) =
        ((chunkPageText page pageText cb doc fn tags M O).get
            ⟨i + 1, hi2⟩).text.take O) ∧
    (∀ hpos : 0 < (chunkPageText page pageText cb doc fn tags M O).length,
      ((chunkPageText page pageText cb doc fn tags M O).get
          ⟨(chunkPageText page pageText cb doc fn tags M O).length - 1,
            by omega⟩).text =
        pySliceL pageText
          (((chunkPageText page pageText cb doc fn tags M O).length - 1) *
            (M - O))
          pageText.length) := by
  have hb : 0 < M - O := by omega
  have hstrip : pyStripL pageText = pageText := pyStripL_eq_self _ hws
  have hne : pageText.isEmpty = false := by
    cases hl : pageText with
    | nil =>
      rw [hl] at hOL
      simp at hOL
    | cons x xs => rfl
  have hout : chunkPageText page pageText cb doc fn tags M O =
      chunkLoop pageText.length pageText page cb doc fn tags M O 0 0 := by
    unfold chunkPageText
    rw [hstrip]
    simp [hne]
  obtain ⟨hlen, hget⟩ :=
    chunkLoop_spec pageText page cb doc fn tags M O hMO hws pageText.length 0 0
      (by omega) (by omega)
  have hlen2 : (chunkPageText page pageText cb doc fn tags M O).length =
      (pageText.length - O + (M - O) - 1) / (M - O) := by
    rw [hout, hlen, Nat.sub_zero]
  have hmain : ∀ i (hi : i < (chunkPageText page pageText cb doc fn tags M O).length),
      ((chunkPageText page pageText cb doc fn tags M O).get ⟨i, hi⟩).text =
        pySliceL pageText (i * (M - O))
          (min (i * (M - O) + M) pageText.length) := by
    intro i hi
    rw [List.get_of_eq hout ⟨i, hi⟩]
    have h0 := hget i (by rw [← hout]; exact hi)
    rw [Nat.zero_add] at h0
    exact h0
  refine ⟨hlen2, ?_, ?_⟩
  · intro i hi hi2
    have hti := hmain i hi
    have hti1 := hmain (i + 1) hi2
    have hn2 : i + 2 ≤ (pageText.length - O + (M - O) - 1) / (M - O) := by
      rw [hlen2] at hi2
      omega
    have hmul : (i + 2) * (M - O) ≤ pageText.length - O + (M - O) - 1 :=
      (Nat.le_div_iff_mul_le hb).mp hn2
    have hs2 : (i + 2) * (M - O) = i * (M - O) + (M - O) + (M - O) := by
      ring
    have hs1 : (i + 1) * (M - O) = i * (M - O) + (M - O) := Nat.succ_mul _ _
    set ib := i * (M - O) with hib
    have hw : ib + M < pageText.length := by
      rw [hs2] at hmul
      omega
    have hm1 : min (ib + M) pageText.length = ib + M := by
      omega
    rw [hm1] at hti
    rw [hti, hti1, pySliceL_length, pySliceL_drop, pySliceL_take]
    congr 1
    · omega
    · omega
  · intro hpos
    have hm := hmain ((chunkPageText page pageText cb doc fn tags M O).length - 1)
      (by omega)
    set n := (chunkPageText page pageText cb doc fn tags M O).length with hn
    have hdm := Nat.div_add_mod (pageText.length - O + (M - O) - 1) (M - O)
    have hmod : (pageText.length - O + (M - O) - 1) % (M - O) < M - O :=
      Nat.mod_lt _ hb
    have hsn : n * (M - O) = (n - 1) * (M - O) + (M - O) := by
      have hn1 : n = (n - 1) + 1 := by omega
      conv_lhs => rw [hn1]
      rw [Nat.succ_mul]
    set P := ((pageText.length - O + (M - O) - 1) / (M - O)) * (M - O) with hP
    set Q := (n - 1) * (M - O) with hQ
    have hPn : n * (M - O) = P := by
      rw [hlen2, hP]
    have hdm2 : P + (pageText.length - O + (M - O) - 1) % (M - O) =
        pageText.length - O + (M - O) - 1 := by
      rw [hP, mul_comm]
      exact hdm
    have hminL : min (Q + M) pageText.length = pageText.length := by
      omega
    rw [hm, hminL]

/-- C2 counterexample: (i) the page text `"a     b"` (length 7, interior
whitespace) with `M = 2`, `O = 0` yields 1 chunk — the second window
strips to empty and the loop breaks, losing `"b"` — while the claimed
count is `ceil(7/2) = 4`; (ii) the text `"ab"` with `M = 5`, `O = 3`
(`L ≤ O`) yields 1 chunk while the claimed count is 0. -/
theorem spec_C2_counterexample :
    ((chunkPageText 1 "a     b".data "cb" "doc" none ["default"] 2 0).length = 1 ∧
      ("a     b".data.length - 0 + (2 - 0) - 1) / (2 - 0) = 4) ∧
    ((chunkPageText 1 "ab".data "cb" "doc" none ["default"] 5 3).length = 1 ∧
      ("ab".data.length - 3 + (5 - 3) - 1) / (5 - 3) = 0) := by
  refine ⟨⟨?_, by decide⟩, ⟨?_, by decide⟩⟩
  · decide
  · decide

/-- C2 witness: whitespace-free text `"abcdefgh"` with `M = 3`, `O = 1`
has exactly `ceil((8-1)/2) = 4` chunks. -/
theorem spec_C2_witness :
    (chunkPageText 1 "abcdefgh".data "cb" "doc" none ["default"] 3 1).length =
      ("abcdefgh".data.length - 1 + (3 - 1) - 1) / (3 - 1) :=
  (spec_C2 "abcdefgh".data 1 "cb" "doc" none ["default"] 3 1 (by decide)
    (by decide) (by decide)).1

/-- C7 witness: a concrete advance step and fuel-insensitivity
instance. -/
theorem spec_C7_witness :
    (min (0 + 3) ("abcdef".data.length) - 1 = 0 + (3 - 1) ∧
      0 + 1 ≤ min (0 + 3) ("abcdef".data.length) - 1) ∧
    chunkLoop 10 "abcdef".data 1 "cb" "doc" none ["default"] 3 1 0 0 =
      chunkLoop ("abcdef".data.length - 0) "abcdef".data 1 "cb" "doc" none
        ["default"] 3 1 0 0 :=
  ⟨(spec_C7 "abcdef".data 3 1 (by decide) (by decide)).1 0 (by decide),
   (spec_C7 "abcdef".data 3 1 (by decide) (by decide)).2 10 1 "cb" "doc" none
     ["default"] 0 0 (by decide)⟩

/-- C8: `cleanOcrTextBlocks` returns a list of the same length and order in
which every field other than `text` is unchanged, each block's text is either
kept (when it strips to empty) or replaced by `safeCleanText`, and
`safeCleanText` returns the original text verbatim whenever the per-block LLM
call fails with an HTTP error, yields unparseable output, or yields an empty
`cleaned_text` — the stage never loses a block's information. -/
theorem spec_C8 (env : String → CallOutcome) (blocks : List TextBlock) :
    (cleanOcrTextBlocks env blocks).length = blocks.length ∧
    (∀ i (hi : i < blocks.length)
        (hi2 : i < (cleanOcrTextBlocks env blocks).length),
      ((cleanOcrTextBlocks env blocks).get ⟨i, hi2⟩).page =
          (blocks.get ⟨i, hi⟩).page ∧
      ((cleanOcrTextBlocks env blocks).get ⟨i, hi2⟩).block_id =
          (blocks.get ⟨i, hi⟩).block_id ∧
      ((cleanOcrTextBlocks env blocks).get ⟨i, hi2⟩).bbox =
          (blocks.get ⟨i, hi⟩).bbox ∧
      ((cleanOcrTextBlocks env blocks).get ⟨i, hi2⟩).prob =
          (blocks.get ⟨i, hi⟩).prob ∧
      ((cleanOcrTextBlocks env blocks).get ⟨i, hi2⟩).text =
        (if (pyStripL (blocks.get ⟨i, hi⟩).text.data).isEmpty = true then
          (blocks.get ⟨i, hi⟩).text
         else safeCleanText env (blocks.get ⟨i, hi⟩).text)) ∧
    (∀ raw, env raw = CallOutcome.httpError → safeCleanText env raw = raw) ∧
    (∀ raw content, env raw = CallOutcome.ok content →
      (parseJson content.data).isOk = false → safeCleanText env raw = raw) ∧
    (∀ raw content data, env raw = CallOutcome.ok content →
      parseJson content.data = Except.ok data →
      (pyStrip (pyStrJ (jsonGetD data "cleaned_text" (Json.str "")))).data.isEmpty =
        true →
      safeCleanText env raw = raw) := by
  refine ⟨List.length_map _ _, ?_, ?_, ?_, ?_⟩
  · intro i hi hi2
    have hg : (cleanOcrTextBlocks env blocks).get ⟨i, hi2⟩ =
        (if (pyStripL (blocks.get ⟨i, hi⟩).text.data).isEmpty = true then
          blocks.get ⟨i, hi⟩
         else
          { blocks.get ⟨i, hi⟩ with
              text := safeCleanText env (blocks.get ⟨i, hi⟩).text }) := by
      unfold cleanOcrTextBlocks
      unfold cleanOcrTextBlocks at hi2
      exact List.get_map _
    rw [hg]
    by_cases hb : (pyStripL (blocks.get ⟨i, hi⟩).text.data).isEmpty = true
    · rw [if_pos hb, if_pos hb]
      exact ⟨rfl, rfl, rfl, rfl, rfl⟩
    · rw [if_neg hb, if_neg hb]
      exact ⟨rfl, rfl, rfl, rfl, rfl⟩
  · intro raw h
    unfold safeCleanText
    by_cases he : (pyStripL raw.data).isEmpty = true
    · rw [if_pos he]
    · rw [if_neg he, h]
  · intro raw content h hp
    unfold safeCleanText
    by_cases he : (pyStripL raw.data).isEmpty = true
    · rw [if_pos he]
    · rw [if_neg he]
      rcases hpj : parseJson content.data with e | v
      · simp only [h, hpj]
      · rw [hpj] at hp
        simp [Except.isOk, Except.toBool] at hp
  · intro raw content data h hpj hemp
    unfold safeCleanText
    by_cases he : (pyStripL raw.data).isEmpty = true
    · rw [if_pos he]
    · rw [if_neg he]
      simp only [h, hpj]
      rw [if_pos hemp]

/-- Oracle for the C8 witness: one text fails at the HTTP layer, one yields
unparseable output, every other text yields a parseable reply whose
`cleaned_text` strips to empty. -/
def envC8 : String → CallOutcome := fun raw =>
  if raw = "hfail" then CallOutcome.httpError
  else if raw = "noparse" then CallOutcome.ok "no json here"
  else CallOutcome.ok "\x7b\"cleaned_text\": \"   \"\x7d"

/-- A one-block OCR page whose text triggers the HTTP-error path. -/
def blocksC8 : List TextBlock :=
  [{ page := 1, block_id := "b0", bbox := (0, 0, 1, 1), text := "hfail",
     prob := some (Rat.divInt 9 10) }]

/-- C8 witness: on the concrete fixture the length is preserved, the
HTTP-failing block keeps its text, and each of the three failure modes
returns the raw text verbatim. -/
theorem spec_C8_witness :
    (cleanOcrTextBlocks envC8 blocksC8).length = blocksC8.length ∧
    ((cleanOcrTextBlocks envC8 blocksC8).get ⟨0, by decide⟩).text = "hfail" ∧
    safeCleanText envC8 "hfail" = "hfail" ∧
    safeCleanText envC8 "noparse" = "noparse" ∧
    safeCleanText envC8 "emptyclean" = "emptyclean" := by
  have h := spec_C8 envC8 blocksC8
  refine ⟨h.1, ?_, h.2.2.1 "hfail" rfl,
    h.2.2.2.1 "noparse" "no json here" rfl rfl,
    h.2.2.2.2 "emptyclean" "\x7b\"cleaned_text\": \"   \"\x7d"
      (Json.obj [("cleaned_text", Json.str "   ")]) rfl rfl rfl⟩
  have h5 := (h.2.1 0 (by decide) (by decide)).2.2.2.2
  rw [h5, if_neg (by decide)]
  exact h.2.2.1 "hfail" rfl

/-- A record visible to group `g`: the base hit of the C9 run. -/
def recC0 : ChromaRecord :=
  { rid := "r0", document := "base text"
    meta := { chunk_id := some "c0", filename := some "f.pdf", page := some 1,
              document_id := some "d", manual_id := none, chatbot_id := some "cb",
              process_tag := none, user_group := some "g", user_group_tags := none,
              image_paths := none, order_index := some 5, page_chunk_order := none } }

/-- A same-document adjacent record whose `user_group` is `h`, not `g`. -/
def recC1 : ChromaRecord :=
  { rid := "r1", document := "neighbor text"
    meta := { chunk_id := some "c1", filename := some "f.pdf", page := some 1,
              document_id := some "d", manual_id := none, chatbot_id := some "cb",
              process_tag := none, user_group := some "h", user_group_tags := none,
              image_paths := none, order_index := some 6, page_chunk_order := none } }

def storeC9 : List ChromaRecord := [recC0, recC1]

def distC9 : ChromaRecord → ℚ := fun r => if r.rid = "r0" then 0 else 1

/-- C9: the `userGroup` equality filter applies only to the base top-K
query; the neighbor fetch filters only on `document_id` and an
`order_index` range.  Concretely, a search as group `g` over `storeC9`
returns the neighbor chunk `c1` (score `0`) even though its record's
`user_group` is `h ≠ g` — that record fails the base `where` filter yet is
returned by the expansion. -/
theorem spec_C9 :
    (searchTopKWithNeighbors (some storeC9) distC9 true "cb" (some "g") 1 2).map
        (fun c => (c.chunk_id, c.score)) = [("c0", 1), ("c1", 0)] ∧
    recC1 ∈ storeC9 ∧ effChunkId recC1 = "c1" ∧
    recC1.meta.user_group = some "h" ∧ (some "h" : Option String) ≠ some "g" ∧
    matchesBaseWhere "cb" (some "g") recC1.meta = false := by
  refine ⟨by decide, by decide, by decide, by decide, by decide, by decide⟩

theorem strLebL_total : ∀ a b, strLebL a b = true ∨ strLebL b a = true
  | [], _ => Or.inl rfl
  | _ :: _, [] => Or.inr rfl
  | a :: as, b :: bs => by
    by_cases h1 : a.toNat < b.toNat
    · left
      unfold strLebL
      simp [h1]
    · by_cases h2 : b.toNat < a.toNat
      · right
        unfold strLebL
        simp [h2]
      · rcases strLebL_total as bs with h | h
        · left
          unfold strLebL
          simp [h1, h2, h]
        · right
          unfold strLebL
          simp [h1, h2, h]

theorem strLebL_trans : ∀ a b c, strLebL a b = true → strLebL b c = true →
    strLebL a c = true
  | [], _, _, _, _ => rfl
  | _ :: _, [], _, h1, _ => by simp [strLebL] at h1
  | _ :: _, _ :: _, [], _, h2 => by simp [strLebL] at h2
  | a :: as, b :: bs, c :: cs, h1, h2 => by
    unfold strLebL at h1 h2 ⊢
    by_cases hab1 : a.toNat < b.toNat
    · by_cases hbc1 : b.toNat < c.toNat
      · simp [show a.toNat < c.toNat by omega]
      · by_cases hbc2 : c.toNat < b.toNat
        · simp [hbc1, hbc2] at h2
        · simp [show a.toNat < c.toNat by omega]
    · by_cases hab2 : b.toNat < a.toNat
      · simp [hab1, hab2] at h1
      · by_cases hbc1 : b.toNat < c.toNat
        · simp [show a.toNat < c.toNat by omega]
        · by_cases hbc2 : c.toNat < b.toNat
          · simp [hbc1, hbc2] at h2
          · simp [hab1, hab2] at h1
            simp [hbc1, hbc2] at h2
            simp [show ¬ a.toNat < c.toNat by omega, show ¬ c.toNat < a.toNat by omega]
            exact strLebL_trans as bs cs h1 h2

theorem strLebL_antisymm : ∀ a b, strLebL a b = true → strLebL b a = true → a = b
  | [], [], _, _ => rfl
  | [], _ :: _, _, h2 => by simp [strLebL] at h2
  | _ :: _, [], h1, _ => by simp [strLebL] at h1
  | a :: as, b :: bs, h1, h2 => by
    unfold strLebL at h1 h2
    by_cases hab1 : a.toNat < b.toNat
    · simp [show ¬ b.toNat < a.toNat by omega, hab1] at h2
    · by_cases hab2 : b.toNat < a.toNat
      · simp [hab1, hab2] at h1
      · simp [hab1, hab2] at h1
        simp [hab1, hab2] at h2
        have hn : a.toNat = b.toNat := by omega
        have hc : a = b := by
          apply Char.ext
          apply UInt32.ext
          exact hn
        rw [hc, strLebL_antisymm as bs h1 h2]

theorem strLeb_antisymm (a b : String) (h1 : strLeb a b = true)
    (h2 : strLeb b a = true) : a = b := by
  apply String.ext
  exact strLebL_antisymm a.data b.data h1 h2

theorem neighborChunkLe_total (a b : SearchChunk) :
    neighborChunkLe a b = true ∨ neighborChunkLe b a = true := by
  unfold neighborChunkLe neighborKeyLe
  by_cases h : (neighborKey a).1 = (neighborKey b).1
  · rw [if_pos h, if_pos h.symm]
    by_cases h2 : (neighborKey a).2 ≤ (neighborKey b).2
    · left
      exact decide_eq_true h2
    · right
      exact decide_eq_true (by omega)
  · have h2 : ¬ (neighborKey b).1 = (neighborKey a).1 := fun hh => h hh.symm
    rw [if_neg h, if_neg h2]
    exact strLebL_total _ _

theorem neighborChunkLe_trans (a b c : SearchChunk)
    (h1 : neighborChunkLe a b = true) (h2 : neighborChunkLe b c = true) :
    neighborChunkLe a c = true := by
  unfold neighborChunkLe neighborKeyLe at h1 h2 ⊢
  by_cases hab : (neighborKey a).1 = (neighborKey b).1
  · by_cases hbc : (neighborKey b).1 = (neighborKey c).1
    · rw [if_pos hab] at h1
      rw [if_pos hbc] at h2
      rw [if_pos (hab.trans hbc)]
      have g1 := of_decide_eq_true h1
      have g2 := of_decide_eq_true h2
      exact decide_eq_true (le_trans g1 g2)
    · have hac : ¬ (neighborKey a).1 = (neighborKey c).1 := fun hh =>
        hbc (hab.symm.trans hh)
      rw [if_neg hbc] at h2
      rw [if_neg hac, hab]
      exact h2
  · by_cases hbc : (neighborKey b).1 = (neighborKey c).1
    · have hac : ¬ (neighborKey a).1 = (neighborKey c).1 := fun hh =>
        hab (hh.trans hbc.symm)
      rw [if_neg hab] at h1
      rw [if_neg hac, ← hbc]
      exact h1
    · rw [if_neg hab] at h1
      rw [if_neg hbc] at h2
      by_cases hac : (neighborKey a).1 = (neighborKey c).1
      · exfalso
        apply hab
        apply strLeb_antisymm
        · exact h1
        · rw [← hac] at h2
          exact h2
      · rw [if_neg hac]
        exact strLebL_trans _ _ _ h1 h2

theorem setAddInt_mem (s : List Int) (y x : Int) :
    x ∈ setAddInt s y ↔ x ∈ s ∨ x = y := by
  unfold setAddInt
  by_cases h : y ∈ s
  · rw [if_pos h]
    constructor
    · exact Or.inl
    · rintro (hx | rfl)
      · exact hx
      · exact h
  · rw [if_neg h]
    simp

theorem foldl_setAddInt_mem : ∀ (ts : List Int) (s : List Int) (x : Int),
    x ∈ ts.foldl setAddInt s ↔ x ∈ s ∨ x ∈ ts
  | [], s, x => by simp
  | t :: ts, s, x => by
    rw [List.foldl_cons, foldl_setAddInt_mem ts (setAddInt s t) x, setAddInt_mem]
    simp only [List.mem_cons]
    tauto

theorem assocAddTargets_mem (acc : List (String × List Int)) (doc : String)
    (ts : List Int) (p : String × List Int) (hp : p ∈ assocAddTargets acc doc ts)
    (oi : Int) (hoi : oi ∈ p.2) :
    (∃ q ∈ acc, q.1 = p.1 ∧ oi ∈ q.2) ∨ (p.1 = doc ∧ oi ∈ ts) := by
  unfold assocAddTargets at hp
  by_cases h : (acc.find? (fun q => q.1 = doc)).isSome
  · rw [if_pos h] at hp
    rcases List.mem_map.mp hp with ⟨q, hq, hmap⟩
    by_cases hqd : q.1 = doc
    · rw [if_pos hqd] at hmap
      rcases hmap with rfl
      rcases (foldl_setAddInt_mem ts q.2 oi).mp hoi with h2 | h2
      · exact Or.inl ⟨q, hq, rfl, h2⟩
      · exact Or.inr ⟨hqd, h2⟩
    · rw [if_neg hqd] at hmap
      rcases hmap with rfl
      exact Or.inl ⟨q, hq, rfl, hoi⟩
  · rw [if_neg h] at hp
    rcases List.mem_append.mp hp with h2 | h2
    · exact Or.inl ⟨p, h2, rfl, hoi⟩
    · rcases List.mem_singleton.mp h2 with rfl
      rcases (foldl_setAddInt_mem ts [] oi).mp hoi with h3 | h3
      · exact absurd h3 (List.not_mem_nil oi)
      · exact Or.inr ⟨rfl, h3⟩

theorem docTargets_aux (radius : Int) (P : SearchChunk → Prop) :
    ∀ (chs : List SearchChunk) (acc : List (String × List Int)),
      (∀ ch ∈ chs, P ch) →
      (∀ p ∈ acc, ∀ oi ∈ p.2, ∃ b, P b ∧ b.meta.document_id = some p.1 ∧
        ∃ boi, b.meta.order_index = some boi ∧ (oi - boi) ∈ neighborOffsets radius) →
      ∀ p ∈ chs.foldl
          (fun acc ch =>
            match ch.meta.document_id, ch.meta.order_index with
            | some doc, some oi =>
              assocAddTargets acc doc ((neighborOffsets radius).map (fun d => oi + d))
            | _, _ => acc) acc,
        ∀ oi ∈ p.2, ∃ b, P b ∧ b.meta.document_id = some p.1 ∧
          ∃ boi, b.meta.order_index = some boi ∧ (oi - boi) ∈ neighborOffsets radius
  | [], acc, _, hacc => by
    simpa using hacc
  | ch :: chs, acc, hP, hacc => by
    rw [List.foldl_cons]
    apply docTargets_aux radius P chs _ (fun c hc => hP c (List.mem_cons_of_mem ch hc))
    intro p hp oi hoi
    rcases hd : ch.meta.document_id with _ | doc
    · simp only [hd] at hp
      exact hacc p hp oi hoi
    · rcases ho : ch.meta.order_index with _ | boi
      · simp only [hd, ho] at hp
        exact hacc p hp oi hoi
      · simp only [hd, ho] at hp
        rcases assocAddTargets_mem acc doc _ p hp oi hoi with ⟨q, hq, hq1, hq2⟩ | ⟨h1, h2⟩
        · rcases hacc q hq oi hq2 with ⟨b, hb1, hb2, boi2, hb3, hb4⟩
          exact ⟨b, hb1, hq1 ▸ hb2, boi2, hb3, hb4⟩
        · rcases List.mem_map.mp h2 with ⟨d, hd2, rfl⟩
          refine ⟨ch, hP ch (List.mem_cons_self ch chs), ?_, boi, ho, ?_⟩
          · rw [hd, h1]
          · simpa using hd2

theorem docTargets_mem (radius : Int) (base : List SearchChunk)
    (p : String × List Int) (hp : p ∈ docTargets radius base)
    (oi : Int) (hoi : oi ∈ p.2) :
    ∃ b ∈ base, b.meta.document_id = some p.1 ∧
      ∃ boi, b.meta.order_index = some boi ∧ (oi - boi) ∈ neighborOffsets radius := by
  have h := docTargets_aux radius (fun b => b ∈ base) base []
    (fun c hc => hc) (by intro q hq; exact absurd hq (List.not_mem_nil q))
  unfold docTargets at hp
  rcases h p hp oi hoi with ⟨b, hb1, hb2, boi, hb3, hb4⟩
  exact ⟨b, hb1, hb2, boi, hb3, hb4⟩

theorem setAddStr_mem (s : List String) (y x : String) :
    x ∈ setAddStr s y ↔ x ∈ s ∨ x = y := by
  unfold setAddStr
  by_cases h : y ∈ s
  · rw [if_pos h]
    constructor
    · exact Or.inl
    · rintro (hx | rfl)
      · exact hx
      · exact h
  · rw [if_neg h]
    simp

theorem collectDocNeighbors_spec (os : List Int) :
    ∀ (rs : List ChromaRecord) (seen : List String),
      (∀ r ∈ rs, (effChunkId r).data.isEmpty = false) →
      (∀ s ∈ seen, s ∈ (collectDocNeighbors os rs seen).1) ∧
      (∀ n ∈ (collectDocNeighbors os rs seen).2,
        (∃ r ∈ rs, n = mkNeighborChunk r ∧
          ∃ oi, r.meta.order_index = some oi ∧ oi ∈ os) ∧
        n.chunk_id ∉ seen ∧ n.chunk_id ∈ (collectDocNeighbors os rs seen).1) ∧
      ((collectDocNeighbors os rs seen).2.map SearchChunk.chunk_id).Nodup
  | [], seen, _ => by
    refine ⟨fun s hs => hs, ?_, ?_⟩
    · intro n hn
      simp [collectDocNeighbors] at hn
    · simp [collectDocNeighbors]
  | r :: rs, seen, hne => by
    have hner : (effChunkId r).data.isEmpty = false := hne r (List.mem_cons_self r rs)
    have hne2 : ∀ x ∈ rs, (effChunkId x).data.isEmpty = false :=
      fun x hx => hne x (List.mem_cons_of_mem r hx)
    have hskip : ∀ hred : collectDocNeighbors os (r :: rs) seen =
          collectDocNeighbors os rs seen,
        (∀ s ∈ seen, s ∈ (collectDocNeighbors os (r :: rs) seen).1) ∧
        (∀ n ∈ (collectDocNeighbors os (r :: rs) seen).2,
          (∃ x ∈ r :: rs, n = mkNeighborChunk x ∧
            ∃ oi, x.meta.order_index = some oi ∧ oi ∈ os) ∧
          n.chunk_id ∉ seen ∧
            n.chunk_id ∈ (collectDocNeighbors os (r :: rs) seen).1) ∧
        ((collectDocNeighbors os (r :: rs) seen).2.map SearchChunk.chunk_id).Nodup := by
      intro hred
      rw [hred]
      rcases collectDocNeighbors_spec os rs seen hne2 with ⟨m, mem, nd⟩
      refine ⟨m, fun n hn => ?_, nd⟩
      obtain ⟨⟨x, hx, hrest⟩, h2, h3⟩ := mem n hn
      exact ⟨⟨x, List.mem_cons_of_mem r hx, hrest⟩, h2, h3⟩
    rcases ho : r.meta.order_index with _ | oi
    · exact hskip (by simp only [collectDocNeighbors, ho])
    · by_cases hoi : oi ∈ os
      · by_cases hs : effChunkId r ∈ seen
        · refine hskip ?_
          have hc : ¬ (effChunkId r).data.isEmpty ∧ effChunkId r ∈ seen :=
            ⟨by simp [hner], hs⟩
          simp only [collectDocNeighbors, ho]
          rw [if_pos hoi, if_pos hc]
        · have hc : ¬ (¬ (effChunkId r).data.isEmpty ∧ effChunkId r ∈ seen) :=
            fun h => hs h.2
          have hred : collectDocNeighbors os (r :: rs) seen =
              ((collectDocNeighbors os rs (setAddStr seen (effChunkId r))).1,
               mkNeighborChunk r ::
                 (collectDocNeighbors os rs (setAddStr seen (effChunkId r))).2) := by
            simp only [collectDocNeighbors, ho]
            rw [if_pos hoi, if_neg hc, if_neg (by simp [hner])]
          rw [hred]
          rcases collectDocNeighbors_spec os rs (setAddStr seen (effChunkId r)) hne2
            with ⟨m, mem, nd⟩
          have hsub : ∀ s ∈ seen, s ∈ setAddStr seen (effChunkId r) :=
            fun s hs2 => (setAddStr_mem seen (effChunkId r) s).mpr (Or.inl hs2)
          have hcidIn : effChunkId r ∈ setAddStr seen (effChunkId r) :=
            (setAddStr_mem seen (effChunkId r) (effChunkId r)).mpr (Or.inr rfl)
          refine ⟨fun s hs2 => m s (hsub s hs2), ?_, ?_⟩
          · intro n hn
            rcases List.mem_cons.mp hn with rfl | hn2
            · exact ⟨⟨r, List.mem_cons_self r rs, rfl, oi, ho, hoi⟩, hs,
                m (effChunkId r) hcidIn⟩
            · obtain ⟨⟨x, hx, hrest⟩, h2, h3⟩ := mem n hn2
              refine ⟨⟨x, List.mem_cons_of_mem r hx, hrest⟩, fun hmem => ?_, h3⟩
              exact h2 (hsub n.chunk_id hmem)
          · rw [List.map_cons]
            refine List.nodup_cons.mpr ⟨?_, nd⟩
            intro hmem
            rcases List.mem_map.mp hmem with ⟨n, hn, hcid⟩
            obtain ⟨_, h2, _⟩ := mem n hn
            rw [hcid] at h2
            exact h2 hcidIn
      · refine hskip ?_
        simp only [collectDocNeighbors, ho]
        rw [if_neg hoi]

theorem collectNeighbors_spec (recs : List ChromaRecord)
    (hne : ∀ r ∈ recs, (effChunkId r).data.isEmpty = false) :
    ∀ (ts : List (String × List Int)) (seen : List String),
      (∀ n ∈ collectNeighbors recs ts seen,
        (∃ p ∈ ts, ∃ r ∈ recs, r.meta.document_id = some p.1 ∧
          n = mkNeighborChunk r ∧ ∃ oi, r.meta.order_index = some oi ∧ oi ∈ p.2) ∧
        n.chunk_id ∉ seen) ∧
      ((collectNeighbors recs ts seen).map SearchChunk.chunk_id).Nodup
  | [], seen => by
    constructor
    · intro n hn
      simp [collectNeighbors] at hn
    · simp [collectNeighbors]
  | p :: ts, seen => by
    by_cases hemp : p.2.isEmpty = true
    · have hred : collectNeighbors recs (p :: ts) seen =
          collectNeighbors recs ts seen := by
        simp only [collectNeighbors]
        rw [if_pos hemp]
      rw [hred]
      rcases collectNeighbors_spec recs hne ts seen with ⟨mem, nd⟩
      refine ⟨fun n hn => ?_, nd⟩
      obtain ⟨⟨q, hq, hrest⟩, h2⟩ := mem n hn
      exact ⟨⟨q, List.mem_cons_of_mem p hq, hrest⟩, h2⟩
    · have hnef : ∀ r ∈ recs.filter
          (fun r => neighborWhereMatch p.1 (intListMin p.2) (intListMax p.2) r.meta),
          (effChunkId r).data.isEmpty = false :=
        fun r hr => hne r (List.mem_of_mem_filter hr)
      rcases collectDocNeighbors_spec p.2
        (recs.filter
          (fun r => neighborWhereMatch p.1 (intListMin p.2) (intListMax p.2) r.meta))
        seen hnef with ⟨mono, memD, ndD⟩
      have hred : collectNeighbors recs (p :: ts) seen =
          (collectDocNeighbors p.2
            (recs.filter
              (fun r => neighborWhereMatch p.1 (intListMin p.2) (intListMax p.2) r.meta))
            seen).2 ++
          collectNeighbors recs ts
            (collectDocNeighbors p.2
              (recs.filter
                (fun r => neighborWhereMatch p.1 (intListMin p.2) (intListMax p.2) r.meta))
              seen).1 := by
        simp only [collectNeighbors]
        rw [if_neg hemp]
      rw [hred]
      rcases collectNeighbors_spec recs hne ts
        (collectDocNeighbors p.2
          (recs.filter
            (fun r => neighborWhereMatch p.1 (intListMin p.2) (intListMax p.2) r.meta))
          seen).1 with ⟨memR, ndR⟩
      constructor
      · intro n hn
        rcases List.mem_append.mp hn with hn1 | hn2
        · obtain ⟨⟨r, hr, hmk, oi, hoi, hoimem⟩, h2, _⟩ := memD n hn1
          have hrrecs : r ∈ recs := List.mem_of_mem_filter hr
          have hwm := List.of_mem_filter hr
          have hdoc : r.meta.document_id = some p.1 := by
            unfold neighborWhereMatch at hwm
            rcases Bool.and_eq_true_iff.mp hwm with ⟨h3, _⟩
            exact of_decide_eq_true h3
          exact ⟨⟨p, List.mem_cons_self p ts, r, hrrecs, hdoc, hmk, oi, hoi, hoimem⟩, h2⟩
        · obtain ⟨⟨q, hq, hrest⟩, h2⟩ := memR n hn2
          refine ⟨⟨q, List.mem_cons_of_mem p hq, hrest⟩, fun hmem => ?_⟩
          exact h2 (mono n.chunk_id hmem)
      · rw [List.map_append]
        refine List.nodup_append.mpr ⟨ndD, ndR, ?_⟩
        intro a ha1 ha2
        rcases List.mem_map.mp ha1 with ⟨n1, hn1, hcid1⟩
        rcases List.mem_map.mp ha2 with ⟨n2, hn2, hcid2⟩
        obtain ⟨_, _, h3⟩ := memD n1 hn1
        obtain ⟨_, h4⟩ := memR n2 hn2
        rw [hcid1] at h3
        rw [hcid2] at h4
        exact h4 h3

theorem str_ne_empty_isEmpty_false (s : String) (h : s ≠ "") :
    s.data.isEmpty = false := by
  rcases Bool.eq_false_or_eq_true s.data.isEmpty with h2 | h2
  · exfalso
    apply h
    apply String.ext
    rw [List.isEmpty_iff.mp h2]
  · exact h2

theorem searchTopK_mem (recs : List ChromaRecord) (dist : ChromaRecord → ℚ)
    (embedOk : Bool) (chatbotId : String) (userGroup : Option String) (topK : Nat)
    (b : SearchChunk)
    (hb : b ∈ searchTopK (some recs) dist embedOk chatbotId userGroup topK) :
    ∃ r ∈ recs, b = SearchChunk.mk (effChunkId r) r.document
      (scoreOfDist (dist r)) (buildMeta r.meta) := by
  simp only [searchTopK] at hb
  by_cases he : embedOk = true
  · rw [if_pos he] at hb
    rcases List.mem_map.mp hb with ⟨r, hr, hmap⟩
    have hr2 : r ∈ sortByLe (distLe dist)
        (recs.filter (fun x => matchesBaseWhere chatbotId userGroup x.meta)) :=
      List.mem_of_mem_take hr
    have hr3 := (sortByLe_perm (distLe dist) _).mem_iff.mp hr2
    exact ⟨r, List.mem_of_mem_filter hr3, hmap.symm⟩
  · rw [if_neg he] at hb
    exact absurd hb (List.not_mem_nil b)

theorem baseSeenIds_aux :
    ∀ (l : List SearchChunk) (acc : List String),
      (∀ x ∈ acc, x ∈ l.foldl
        (fun acc ch =>
          if ch.chunk_id.data.isEmpty then acc else setAddStr acc ch.chunk_id) acc) ∧
      (∀ b ∈ l, b.chunk_id.data.isEmpty = false →
        b.chunk_id ∈ l.foldl
          (fun acc ch =>
            if ch.chunk_id.data.isEmpty then acc else setAddStr acc ch.chunk_id) acc)
  | [], acc => ⟨fun x hx => hx, fun b hb _ => absurd hb (List.not_mem_nil b)⟩
  | ch :: l, acc => by
    rw [List.foldl_cons]
    rcases baseSeenIds_aux l
      (if ch.chunk_id.data.isEmpty then acc else setAddStr acc ch.chunk_id) with ⟨m, mem⟩
    constructor
    · intro x hx
      apply m
      by_cases hc : ch.chunk_id.data.isEmpty = true
      · rw [if_pos hc]
        exact hx
      · rw [if_neg hc]
        exact (setAddStr_mem _ _ _).mpr (Or.inl hx)
    · intro b hb hbne
      rcases List.mem_cons.mp hb with rfl | hb2
      · apply m
        rw [if_neg (by simp [hbne])]
        exact (setAddStr_mem _ _ _).mpr (Or.inr rfl)
      · exact mem b hb2 hbne

theorem baseSeenIds_mem (base : List SearchChunk) (b : SearchChunk) (hb : b ∈ base)
    (hne : b.chunk_id.data.isEmpty = false) : b.chunk_id ∈ baseSeenIds base :=
  (baseSeenIds_aux base []).2 b hb hne

theorem buildMeta_document_id (m : MetaRaw) (doc : String)
    (hd : m.document_id = some doc) (hne : doc.data.isEmpty = false) :
    (buildMeta m).document_id = some doc := by
  simp only [buildMeta]
  rw [hd]
  unfold pyOrOptStr
  simp [hne]

theorem buildMeta_order_index (m : MetaRaw) :
    (buildMeta m).order_index = m.order_index := rfl

/-- C5: in `searchTopKWithNeighbors` over a store whose records have
non-empty effective chunk ids and no empty-string `document_id`, the result
is the base top-K hits followed by a neighbor list sorted by
`(document_id, order_index)` with pairwise-distinct chunk ids; every
neighbor has score `0`, a chunk id distinct from every base hit's, and a
base hit in the same document whose `order_index` is within `±2` — never a
cross-document neighbor. -/
theorem spec_C5 (recs : List ChromaRecord) (dist : ChromaRecord → ℚ)
    (embedOk : Bool) (chatbotId : String) (userGroup : Option String) (topK : Nat)
    (hid : ∀ r ∈ recs, effChunkId r ≠ "")
    (hdoc : ∀ r ∈ recs, r.meta.document_id ≠ some "") :
    ∃ neigh,
      searchTopKWithNeighbors (some recs) dist embedOk chatbotId userGroup topK 2 =
        searchTopK (some recs) dist embedOk chatbotId userGroup topK ++ neigh ∧
      List.Sorted (fun a b => neighborChunkLe a b = true) neigh ∧
      (neigh.map SearchChunk.chunk_id).Nodup ∧
      ∀ n ∈ neigh,
        n.score = 0 ∧
        (∀ b ∈ searchTopK (some recs) dist embedOk chatbotId userGroup topK,
          n.chunk_id ≠ b.chunk_id) ∧
        ∃ b ∈ searchTopK (some recs) dist embedOk chatbotId userGroup topK,
          ∃ doc boi noi,
            b.meta.document_id = some doc ∧ n.meta.document_id = some doc ∧
            b.meta.order_index = some boi ∧ n.meta.order_index = some noi ∧
            (noi = boi - 2 ∨ noi = boi - 1 ∨ noi = boi + 1 ∨ noi = boi + 2) := by
  by_cases hbase :
      (searchTopK (some recs) dist embedOk chatbotId userGroup topK).isEmpty = true
  · refine ⟨[], ?_, List.sorted_nil, List.nodup_nil,
      fun n hn => absurd hn (List.not_mem_nil n)⟩
    rw [List.append_nil]
    simp only [searchTopKWithNeighbors]
    rw [if_pos (Or.inl hbase)]
  · have hne : ∀ r ∈ recs, (effChunkId r).data.isEmpty = false :=
      fun r hr => str_ne_empty_isEmpty_false _ (hid r hr)
    rcases collectNeighbors_spec recs hne
      (docTargets 2 (searchTopK (some recs) dist embedOk chatbotId userGroup topK))
      (baseSeenIds (searchTopK (some recs) dist embedOk chatbotId userGroup topK))
      with ⟨memN, ndN⟩
    refine ⟨sortByLe neighborChunkLe
      (collectNeighbors recs
        (docTargets 2 (searchTopK (some recs) dist embedOk chatbotId userGroup topK))
        (baseSeenIds (searchTopK (some recs) dist embedOk chatbotId userGroup topK))),
      ?_, ?_, ?_, ?_⟩
    · have hcond : ¬ (((searchTopK (some recs) dist embedOk chatbotId userGroup
          topK).isEmpty = true) ∨ ((2:Int) ≤ 0)) := by
        rintro (h | h)
        · exact hbase h
        · omega
      simp only [searchTopKWithNeighbors]
      rw [if_neg hcond]
    · exact sortByLe_sorted neighborChunkLe neighborChunkLe_total
        neighborChunkLe_trans _
    · exact ((sortByLe_perm neighborChunkLe _).map SearchChunk.chunk_id).nodup_iff.mpr
        ndN
    · intro n hn
      have hn2 := (sortByLe_perm neighborChunkLe _).mem_iff.mp hn
      obtain ⟨⟨p, hp, r, hr, hdocid, hmk, oi, hoi, hoimem⟩, hnotseen⟩ := memN n hn2
      refine ⟨by rw [hmk]; rfl, ?_, ?_⟩
      · intro b hbmem heq
        rcases searchTopK_mem recs dist embedOk chatbotId userGroup topK b hbmem
          with ⟨rb, hrb, hbeq⟩
        have hbne : b.chunk_id.data.isEmpty = false := by
          rw [hbeq]
          exact hne rb hrb
        apply hnotseen
        rw [heq]
        exact baseSeenIds_mem _ b hbmem hbne
      · rcases docTargets_mem 2 _ p hp oi hoimem with ⟨b, hbmem, hbdoc, boi, hboi, hoff⟩
        have hdocne : p.1 ≠ "" := by
          intro hcontra
          apply hdoc r hr
          rw [hdocid, hcontra]
        have hndoc : n.meta.document_id = some p.1 := by
          rw [hmk]
          exact buildMeta_document_id r.meta p.1 hdocid
            (str_ne_empty_isEmpty_false _ hdocne)
        have hnoi : n.meta.order_index = some oi := by
          rw [hmk]
          exact hoi
        have hoffs : neighborOffsets 2 = [-2, -1, 1, 2] := by decide
        rw [hoffs] at hoff
        simp only [List.mem_cons, List.not_mem_nil, or_false] at hoff
        refine ⟨b, hbmem, p.1, boi, oi, hbdoc, hndoc, hboi, hnoi, ?_⟩
        rcases hoff with h | h | h | h
        · left
          omega
        · right
          left
          omega
        · right
          right
          left
          omega
        · right
          right
          right
          omega

/-- C5 witness: the neighbor-expansion guarantees instantiated on the
concrete two-record store. -/
theorem spec_C5_witness :
    (∀ r ∈ storeC9, effChunkId r ≠ "") ∧
    (∀ r ∈ storeC9, r.meta.document_id ≠ some "") ∧
    ∃ neigh,
      searchTopKWithNeighbors (some storeC9) distC9 true "cb" none 1 2 =
        searchTopK (some storeC9) distC9 true "cb" none 1 ++ neigh ∧
      List.Sorted (fun a b => neighborChunkLe a b = true) neigh ∧
      (neigh.map SearchChunk.chunk_id).Nodup ∧
      ∀ n ∈ neigh,
        n.score = 0 ∧
        (∀ b ∈ searchTopK (some storeC9) distC9 true "cb" none 1,
          n.chunk_id ≠ b.chunk_id) ∧
        ∃ b ∈ searchTopK (some storeC9) distC9 true "cb" none 1,
          ∃ doc boi noi,
            b.meta.document_id = some doc ∧ n.meta.document_id = some doc ∧
            b.meta.order_index = some boi ∧ n.meta.order_index = some noi ∧
            (noi = boi - 2 ∨ noi = boi - 1 ∨ noi = boi + 1 ∨ noi = boi + 2) :=
  ⟨by decide, by decide,
   spec_C5 storeC9 distC9 true "cb" none 1 (by decide) (by decide)⟩
